import Mathlib

/-!
Shallow embedding of the pytype structural type-matching engine:

* `pytd` — the slice of the declared-type AST (`pytype/pytd/pytd.py`) the
  claims touch: the closed `Ty` sum of type nodes, `UnionType` construction
  (flattening, duplicate removal, set-based equality and hash), and the lazily
  cached name-lookup tables of `TypeDeclUnit` and `Class`.
* `abstract` — the abstract runtime value model the matcher dispatches on
  (owned by `abstract.py`, outside the core source; the few operations the
  matcher needs are modelled from the spec where noted).
* `matcher` — `AbstractMatcher` (`pytype/matcher.py`), embedded as a
  fuel-indexed evaluator `run` over a defunctionalised call type `MCall`, one
  constructor per method of the Python class.  Python `None` results and
  `None`-valued substitutions are `Option`; uncaught Python exceptions
  (`KeyError`, `TypeError`, `ValueError`, `AssertionError`,
  `NotImplementedError`) are `Except` errors; running out of fuel is the
  distinguished error `noFuel`, so every theorem quantifies over sufficient
  fuel explicitly.
-/

/-- Python `dict` lookup `d.get(k)` over an insertion-ordered association
list. -/
def dictGet? {α : Type} : List (String × α) → String → Option α
  | [], _ => none
  | (k2, v) :: rest, k => if k2 = k then some v else dictGet? rest k

/-- Python `dict` update `d[k] = v`: replaces the value in place if the key is
present, appends otherwise (insertion order preserved). -/
def dictSet {α : Type} : List (String × α) → String → α → List (String × α)
  | [], k, v => [(k, v)]
  | (k2, v2) :: rest, k, v =>
    if k2 = k then (k, v) :: rest else (k2, v2) :: dictSet rest k v

/-- Python `k in d`. -/
def dictContains {α : Type} (d : List (String × α)) (k : String) : Bool :=
  (dictGet? d k).isSome

namespace pytd

/-- The closed sum of pytd type nodes registered as `{Type}` in `pytd.py`:
NamedType, ClassType, FunctionType, AnythingType, NothingType, UnionType,
GenericType with its two specialisations, and TypeParameter.  `ClassType`
carries only its name: the mutable `cls` back-pointer is excluded from the
node's tuple equality, and `FunctionType.function` plays no role in the
operations below. -/
inductive Ty where
  | namedType (name : String)
  | classType (name : String)
  | functionType (name : String)
  | anythingType
  | nothingType
  | unionType (type_list : List Ty)
  | genericType (base_type : Ty) (parameters : List Ty)
  | homogeneousContainerType (base_type : Ty) (parameters : List Ty)
  | tupleType (base_type : Ty) (parameters : List Ty)
  | typeParameter (name : String) (scope : Option String)

mutual

/-- Structural equality of type nodes (the namedtuple `__eq__`). -/
def Ty.beq : Ty → Ty → Bool
  | .namedType a, .namedType b => a == b
  | .classType a, .classType b => a == b
  | .functionType a, .functionType b => a == b
  | .anythingType, .anythingType => true
  | .nothingType, .nothingType => true
  | .unionType l1, .unionType l2 => Ty.beqList l1 l2
  | .genericType b1 p1, .genericType b2 p2 => Ty.beq b1 b2 && Ty.beqList p1 p2
  | .homogeneousContainerType b1 p1, .homogeneousContainerType b2 p2 =>
      Ty.beq b1 b2 && Ty.beqList p1 p2
  | .tupleType b1 p1, .tupleType b2 p2 => Ty.beq b1 b2 && Ty.beqList p1 p2
  | .typeParameter n1 s1, .typeParameter n2 s2 => n1 == n2 && s1 == s2
  | _, _ => false

/-- Pointwise `Ty.beq` on lists of type nodes. -/
def Ty.beqList : List Ty → List Ty → Bool
  | [], [] => true
  | a :: as, b :: bs => Ty.beq a b && Ty.beqList as bs
  | _, _ => false

end

/-- Membership with respect to `Ty.beq` (Python `in` uses `__eq__`). -/
def beqMem (x : Ty) (l : List Ty) : Bool := l.any (fun y => Ty.beq x y)

/-- The members one element of the `UnionType` constructor argument
contributes after flattening: `t.type_list if isinstance(t, UnionType) else
[t]`. -/
def unionMembers : Ty → List Ty
  | .unionType l => l
  | t => [t]

/-- Duplicate removal keeping the first occurrence of every element, as
`collections.OrderedDict.fromkeys`; `seen` accumulates the keys already
emitted. -/
def dedupFirstAux : List Ty → List Ty → List Ty
  | _, [] => []
  | seen, x :: xs =>
    if beqMem x seen then dedupFirstAux seen xs
    else x :: dedupFirstAux (x :: seen) xs

/-- Order-preserving duplicate removal. -/
def dedupFirst (l : List Ty) : List Ty := dedupFirstAux [] l

/-- `UnionType.__new__`: asserts the argument list is non-empty (the
assertion failure is modelled as `none`), flattens one level of nested unions
with `itertools.chain.from_iterable`, and removes duplicates preserving
order. -/
def unionTypeNew (type_list : List Ty) : Option Ty :=
  if type_list.isEmpty then none
  else some (.unionType (dedupFirst (List.flatten (type_list.map unionMembers))))

/-- The `type_list` field of a union node. -/
def typeList : Ty → List Ty
  | .unionType l => l
  | _ => []

/-- `frozenset(l1) == frozenset(l2)`: mutual containment with respect to the
element equality. -/
def frozensetEq (l1 l2 : List Ty) : Bool :=
  l1.all (fun t => beqMem t l2) && l2.all (fun t => beqMem t l1)

/-- `UnionType.__eq__` between two union nodes: `frozenset` comparison of the
member lists, i.e. order-independent set equality. -/
def unionEq : Ty → Ty → Bool
  | .unionType l1, .unionType l2 => frozensetEq l1 l2
  | _, _ => false

mutual

/-- Stand-in for Python's per-node `hash`; any deterministic function works
for the hash laws proved below (collisions are legal for a hash). -/
def tyHash : Ty → Nat
  | .namedType a => 2 + a.length
  | .classType a => 3 + a.length
  | .functionType a => 5 + a.length
  | .anythingType => 7
  | .nothingType => 11
  | .unionType l => 13 + tyHashList l
  | .genericType b p => 17 + tyHash b + tyHashList p
  | .homogeneousContainerType b p => 19 + tyHash b + tyHashList p
  | .tupleType b p => 23 + tyHash b + tyHashList p
  | .typeParameter n s =>
    29 + n.length + (match s with
                     | none => 0
                     | some x => 1 + x.length)

/-- Combined hash of a list of type nodes. -/
def tyHashList : List Ty → Nat
  | [] => 1
  | t :: ts => tyHash t + tyHashList ts

end

/-- `UnionType.__hash__` = `hash(frozenset(self.type_list))`: an order- and
multiplicity-insensitive combination of the member hashes, modelled as the sum
of the member hashes over the deduplicated member list. -/
def unionHash : Ty → Nat
  | .unionType l => ((dedupFirst l).map tyHash).sum
  | t => tyHash t

/-- `pytd.Constant`. -/
structure Constant where
  name : String
  type : Ty

/-- `pytd.Alias`. -/
structure Alias where
  name : String
  type : Ty

/-- `pytd.Parameter`. -/
structure Parameter where
  name : String
  type : Ty
  kwonly : Bool
  optional : Bool
  mutated_type : Option Ty

/-- `pytd.TypeParameter` in declaration position (`TypeDeclUnit.type_params`,
`TemplateItem.type_param`). -/
structure TypeParameterN where
  name : String
  scope : Option String

/-- `TypeParameter.full_name`: the scope-qualified name (an empty scope
contributes nothing, `None` scope likewise). -/
def TypeParameterN.full_name (t : TypeParameterN) : String :=
  (match t.scope with
   | none => ""
   | some s => s ++ ".") ++ t.name

/-- `pytd.TemplateItem` wraps a type parameter. -/
structure TemplateItem where
  type_param : TypeParameterN

/-- `TemplateItem.name`. -/
def TemplateItem.name (t : TemplateItem) : String := t.type_param.name

/-- `pytd.Signature`. -/
structure Signature where
  params : List Parameter
  starargs : Option Parameter
  starstarargs : Option Parameter
  return_type : Ty
  exceptions : List Ty
  template : List TemplateItem

/-- `pytd.Function` (also standing in for `ExternalFunction`, which differs
only in carrying no signatures); `kind` is one of `staticmethod`,
`classmethod`, `method`. -/
structure Function where
  name : String
  signatures : List Signature
  kind : String

/-- `pytd.Class`. -/
structure Class where
  name : String
  metaclass : Option Ty
  parents : List Ty
  methods : List Function
  constants : List Constant
  template : List TemplateItem

/-- `pytd.TypeDeclUnit` (module node). -/
structure TypeDeclUnit where
  name : Option String
  constants : List Constant
  type_params : List TypeParameterN
  classes : List Class
  functions : List Function
  aliases : List Alias

/-- An entry of a `_name2item` lookup table. -/
inductive Item where
  | typeParamItem (t : TypeParameterN)
  | constantItem (c : Constant)
  | functionItem (f : Function)
  | classItem (c : Class)
  | aliasItem (a : Alias)

/-- The `name` attribute read by the duplicate check `x.name in
self._name2item`. -/
def Item.name : Item → String
  | .typeParamItem t => t.name
  | .constantItem c => c.name
  | .functionItem f => f.name
  | .classItem c => c.name
  | .aliasItem a => a.name

/-- First phase of `TypeDeclUnit.Lookup`'s table construction: the type
parameters are inserted keyed by their full name, without any duplicate
check. -/
def seedTypeParams (u : TypeDeclUnit) : List (String × Item) :=
  u.type_params.foldl (fun d x => dictSet d x.full_name (.typeParamItem x)) []

/-- The iteration order of the second phase: `self.constants + self.functions
+ self.classes + self.aliases`. -/
def unitItems (u : TypeDeclUnit) : List Item :=
  u.constants.map .constantItem ++ u.functions.map .functionItem ++
    u.classes.map .classItem ++ u.aliases.map .aliasItem

/-- Second phase of `TypeDeclUnit.Lookup`'s table construction: insert each
item keyed by its name, raising (`some` message, with the partially built
table) as soon as a name is already present. -/
def buildLoop : List (String × Item) → List Item → List (String × Item) × Option String
  | d, [] => (d, none)
  | d, x :: xs =>
    if dictContains d x.name then (d, some ("Duplicate name " ++ x.name))
    else buildLoop (dictSet d x.name x) xs

/-- Builds `TypeDeclUnit._name2item`, returning the (possibly partial) table
and the duplicate-name message if the build raised. -/
def buildName2Item (u : TypeDeclUnit) : List (String × Item) × Option String :=
  buildLoop (seedTypeParams u) (unitItems u)

/-- Outcome of a `Lookup` call: the found item, a `KeyError` for a missing
name, or the duplicate-name `AttributeError` raised while building the
table. -/
inductive LookupResult where
  | found (i : Item)
  | keyError (name : String)
  | attributeError (msg : String)

/-- The lazily initialised `_name2item` attribute: `none` before the first
lookup. -/
abbrev Cache := Option (List (String × Item))

/-- `TypeDeclUnit.Lookup` with the lazy cache made explicit.  On a cold cache
the table is built; if the build raises the duplicate-name error, the
partially built table is nevertheless left behind on the node (the attribute
assignment happened before the raise). -/
def TypeDeclUnit.Lookup (u : TypeDeclUnit) (cache : Cache) (name : String) :
    LookupResult × Cache :=
  match cache with
  | some d =>
    (match dictGet? d name with
     | some i => .found i
     | none => .keyError name, some d)
  | none =>
    match buildName2Item u with
    | (d, some msg) => (.attributeError msg, some d)
    | (d, none) =>
      (match dictGet? d name with
       | some i => .found i
       | none => .keyError name, some d)

/-- The iteration order of `Class.Lookup`'s table construction:
`self.methods + self.constants`. -/
def classItems (c : Class) : List Item :=
  c.methods.map .functionItem ++ c.constants.map .constantItem

/-- Builds `Class._name2item`: plain insertion keyed by name, with no
duplicate check of any kind (a later declaration silently replaces an earlier
one with the same name). -/
def buildClassName2Item (c : Class) : List (String × Item) :=
  (classItems c).foldl (fun d x => dictSet d x.name x) []

/-- `Class.Lookup` with the lazy cache made explicit. -/
def Class.Lookup (c : Class) (cache : Cache) (name : String) :
    LookupResult × Cache :=
  match cache with
  | some d =>
    (match dictGet? d name with
     | some i => .found i
     | none => .keyError name, some d)
  | none =>
    (match dictGet? (buildClassName2Item c) name with
     | some i => .found i
     | none => .keyError name, some (buildClassName2Item c))

end pytd

namespace abstract

mutual

/-- The abstract runtime values and formal types the matcher dispatches on
(the `AtomicAbstractValue` hierarchy of `abstract.py`, outside the core
source; constructors and fields follow how `matcher.py` pattern-matches on
them).  `plainClass` is a non-parameterized `Class` with a Python object
identity `uid` (standing in for CPython `is`), its `full_name`, its linearised
`mro`, its optional metaclass variable `cls` and the names of its `template`
type parameters.  `parameterizedClass`/`tupleClass` carry their base class and
their `type_parameters` dict; a `tupleClass` keys its positional slots by
`"0"`, `"1"`, … plus the element key `"T"`.  `simpleInstance` is a
`SimpleAbstractValue`; `tupleInstance` (`abstract.Tuple`, also a
`SimpleAbstractValue`) additionally carries its literal `pyval` elements. -/
inductive AbsVal : Type where
  | plainClass (uid : Nat) (full_name : String) (mro : List AbsVal)
      (cls : Option Var) (template : List String)
  | parameterizedClass (base_cls : AbsVal) (type_parameters : List (String × AbsVal))
  | tupleClass (base_cls : AbsVal) (type_parameters : List (String × AbsVal))
  | simpleInstance (cls : Var) (type_parameters : List (String × Var))
  | tupleInstance (cls : Var) (pyval : List Var) (type_parameters : List (String × Var))
  | unionVal (options : List AbsVal)
  | typeParam (name : String)
  | unknown
  | unsolvable
  | empty
  | nothing
  | moduleVal (full_name : String)
  | functionVal
  | boundFunction
  | classMethod
  | staticMethod
  | superInstance (super_cls : AbsVal) (super_obj : AbsVal)

/-- A typegraph `Variable`: a Python object identity `uid` plus its candidate
bindings.  A `Binding` is identified by its position in the list and carries
only its `data` (typegraph origins play no role in matching). -/
inductive Var : Type where
  | mk (uid : Nat) (bindings : List AbsVal)

end

/-- The `uid` of a variable (CPython object identity, used as a view key). -/
def Var.uid : Var → Nat
  | .mk u _ => u

/-- The candidate bindings of a variable. -/
def Var.bindings : Var → List AbsVal
  | .mk _ bs => bs

/-- `isinstance(·, abstract.Class)`: parameterized classes (and hence tuple
classes) are classes. -/
def isClass : AbsVal → Bool
  | .plainClass .. => true
  | .parameterizedClass .. => true
  | .tupleClass .. => true
  | _ => false

/-- `isinstance(·, abstract.ParameterizedClass)` (true for `TupleClass`,
its subclass). -/
def isParameterizedClass : AbsVal → Bool
  | .parameterizedClass .. => true
  | .tupleClass .. => true
  | _ => false

/-- `isinstance(·, abstract.TupleClass)`. -/
def isTupleClass : AbsVal → Bool
  | .tupleClass .. => true
  | _ => false

/-- `isinstance(·, abstract.Tuple)`. -/
def isTupleInstance : AbsVal → Bool
  | .tupleInstance .. => true
  | _ => false

/-- `isinstance(·, abstract.SimpleAbstractValue)`. -/
def isSimpleAbstractValue : AbsVal → Bool
  | .simpleInstance .. => true
  | .tupleInstance .. => true
  | _ => false

/-- `isinstance(·, (abstract.Unknown, abstract.Unsolvable))`. -/
def isAmbiguous : AbsVal → Bool
  | .unknown => true
  | .unsolvable => true
  | _ => false

/-- `isinstance(·, abstract.AMBIGUOUS_OR_EMPTY)`: unknown, unsolvable or
empty. -/
def ambiguousOrEmpty : AbsVal → Bool
  | .unknown => true
  | .unsolvable => true
  | .empty => true
  | _ => false

/-- `isinstance(·, abstract.Unsolvable)`. -/
def isUnsolvable : AbsVal → Bool
  | .unsolvable => true
  | _ => false

/-- `isinstance(·, abstract.Nothing)`. -/
def isNothingVal : AbsVal → Bool
  | .nothing => true
  | _ => false

/-- `isinstance(·, abstract.Empty)`. -/
def isEmptyVal : AbsVal → Bool
  | .empty => true
  | _ => false

/-- The `formal` flag asserted against in `_match_value_against_type`: true
exactly for formal type parameters appearing as values. -/
def isFormal : AbsVal → Bool
  | .typeParam _ => true
  | _ => false

/-- CPython `is` between the class objects the matcher compares: two
references to a non-parameterized class are identical iff they carry the same
object identity. -/
def pyIs : AbsVal → AbsVal → Bool
  | .plainClass u1 _ _ _ _, .plainClass u2 _ _ _ _ => u1 == u2
  | _, _ => false

/-- The `full_name` attribute; a parameterized class delegates to its base
class. -/
def full_name : AbsVal → String
  | .plainClass _ n _ _ _ => n
  | .parameterizedClass b _ => full_name b
  | .tupleClass b _ => full_name b
  | .moduleVal n => n
  | .typeParam n => n
  | .unknown => "unknown"
  | .unsolvable => "unsolvable"
  | .empty => "empty"
  | .nothing => "nothing"
  | _ => ""

/-- The `base_cls` attribute of a parameterized class (identity on other
values, which never reach a `base_cls` access in the embedded code paths). -/
def base_cls : AbsVal → AbsVal
  | .parameterizedClass b _ => b
  | .tupleClass b _ => b
  | t => t

/-- The `mro` attribute walked by `_match_from_mro`; a parameterized class
delegates to its base class. -/
def mroOf : AbsVal → List AbsVal
  | .plainClass _ _ m _ _ => m
  | .parameterizedClass b _ => mroOf b
  | .tupleClass b _ => mroOf b
  | _ => []

/-- `get_class` / the `cls` attribute: the variable holding the class of an
instance, or the metaclass of a class value. -/
def clsOf : AbsVal → Option Var
  | .plainClass _ _ _ c _ => c
  | .parameterizedClass b _ => clsOf b
  | .tupleClass b _ => clsOf b
  | .simpleInstance c _ => some c
  | .tupleInstance c _ _ => some c
  | _ => none

/-- The `template` attribute (the names of the class's bound type
parameters); a parameterized class delegates to its base class. -/
def templateOf : AbsVal → List String
  | .plainClass _ _ _ _ t => t
  | .parameterizedClass b _ => templateOf b
  | .tupleClass b _ => templateOf b
  | _ => []

/-- The `type_parameters` dict of a parameterized formal class. -/
def type_parametersOf : AbsVal → List (String × AbsVal)
  | .parameterizedClass _ ps => ps
  | .tupleClass _ ps => ps
  | _ => []

/-- Modelled from the spec: `get_type_key` (`abstract.py`, outside the core
source) — "a structural type identity" grouping values "that are guaranteed
to match identically"; the model keys a value by its kind and class names. -/
def get_type_key : AbsVal → String
  | .plainClass _ n _ _ _ => "class " ++ n
  | .parameterizedClass b _ => "pclass " ++ full_name b
  | .tupleClass b _ => "tclass " ++ full_name b
  | .simpleInstance c _ => "instance " ++ String.intercalate "," (c.bindings.map full_name)
  | .tupleInstance c _ _ => "tuple " ++ String.intercalate "," (c.bindings.map full_name)
  | .unionVal _ => "union"
  | .typeParam n => "typeparam " ++ n
  | .unknown => "unknown"
  | .unsolvable => "unsolvable"
  | .empty => "empty"
  | .nothing => "nothing"
  | .moduleVal n => "module " ++ n
  | .functionVal => "function"
  | .boundFunction => "boundfunction"
  | .classMethod => "classmethod"
  | .staticMethod => "staticmethod"
  | .superInstance _ _ => "super"

/-- Modelled from the spec: the per-value operation "get a named type
parameter's variable" (`abstract.py`, outside the core source).  An instance
looks the name up in its `type_parameters` dict, returning an empty variable
when absent; an ambiguous value yields a variable bound to `unsolvable`.
Fresh variable identities are irrelevant to matching and are modelled as 0. -/
def get_type_parameter (inst : AbsVal) (name : String) : Var :=
  match inst with
  | .simpleInstance _ tps => (dictGet? tps name).getD (.mk 0 [])
  | .tupleInstance _ _ tps => (dictGet? tps name).getD (.mk 0 [])
  | .unknown => .mk 0 [.unsolvable]
  | .unsolvable => .mk 0 [.unsolvable]
  | _ => .mk 0 []

/-- Modelled from the spec: `instantiate` (`abstract.py`, outside the core
source) — "instantiate the formal's erasure": a variable holding one fresh
instance of the class; a tuple class instantiates to a literal tuple with
ambiguous elements. -/
def instantiate (uid : Nat) (left : AbsVal) : Var :=
  match left with
  | .tupleClass _ params =>
    .mk uid [.tupleInstance (.mk 0 [left])
      ((List.range (params.length - 1)).map (fun _ => Var.mk 0 [.unsolvable]))
      [("T", Var.mk 0 [.unsolvable])]]
  | .plainClass .. => .mk uid [.simpleInstance (.mk 0 [left]) []]
  | .parameterizedClass .. => .mk uid [.simpleInstance (.mk 0 [left]) []]
  | _ => .mk uid [.unsolvable]

end abstract

namespace matcher

/-- A substitution: the dict from type-parameter name to the variable holding
its collected value bindings. -/
abbrev Subst := List (String × abstract.Var)

/-- A view: the dict pinning, per variable (keyed by its object identity), the
index of the chosen binding. -/
abbrev View := List (Nat × Nat)

/-- Uncaught Python exceptions of the embedded code, plus fuel exhaustion of
the evaluator. -/
inductive PyErr where
  | noFuel
  | keyError
  | typeError
  | valueError
  | assertionError
  | notImplementedError
  deriving DecidableEq

/-- Result of one matching call: an uncaught exception, or the Python return
value — `none` for match failure (or a passed-through `None` substitution),
`some s` for success with substitution `s`. -/
abbrev MRes := Except PyErr (Option Subst)

/-- `view[var]` lookup keyed by variable identity. -/
def viewGet? : View → Nat → Option Nat
  | [], _ => none
  | (u, i) :: rest, uid => if u = uid then some i else viewGet? rest uid

/-- A variable identity not colliding with any view key (for the fresh
variables `_instantiate_and_match` creates). -/
def freshUid (view : View) : Nat :=
  view.foldl (fun m p => max m (p.1 + 1)) 0

/-- Python `name in subst` where `subst` may be `None`: membership on a dict,
`TypeError` on `None`. -/
def pyContains (s? : Option Subst) (k : String) : Except PyErr Bool :=
  match s? with
  | none => .error .typeError
  | some s => .ok (dictGet? s k).isSome

/-- Modelled from the spec: `pep484.COMPAT_MAP` (outside the core source), the
"small fixed lookup" of numeric-tower widenings. -/
def compatItems : List (String × String) :=
  [("bool", "int"), ("int", "float"), ("float", "complex")]

/-- The `compatible_builtins` dict `_match_class_and_instance_against_type`
derives from the compatibility table. -/
def compatible_builtins : List (String × String) :=
  compatItems.map (fun p => ("__builtin__." ++ p.1, "__builtin__." ++ p.2))

/-- The right-hand side options `match_var_against_type` considers for an
empty variable: the union's members, or the formal itself. -/
def rightSideOptions : abstract.AbsVal → List abstract.AbsVal
  | .unionVal opts => opts
  | t => [t]

/-- The loop of `match_var_against_type`'s empty-variable branch: bind every
still-unbound type parameter among the options to a fresh empty variable
(`subst.copy()` then `subst[name] = NewVariable()`); `name not in subst` on a
`None` substitution raises `TypeError`. -/
def bindEmptyLoop : List abstract.AbsVal → Option Subst → Except PyErr (Option Subst)
  | [], s? => .ok s?
  | r :: rest, s? =>
    match r with
    | .typeParam nm =>
      (match s? with
       | none => .error .typeError
       | some s =>
         if (dictGet? s nm).isSome then bindEmptyLoop rest (some s)
         else bindEmptyLoop rest (some (dictSet s nm (.mk 0 []))))
    | _ => bindEmptyLoop rest s?

/-- A `for` loop returning the first non-`None` result and falling through to
`None` (used for union members, MRO class candidates and views); exceptions
propagate. -/
def firstMatch {α : Type} (f : α → MRes) : List α → MRes
  | [] => .ok none
  | x :: xs =>
    match f x with
    | .error e => .error e
    | .ok (some s) => .ok (some s)
    | .ok none => firstMatch f xs

/-- A `for` loop threading `subst = f(…, subst)` and returning `None` as soon
as one step fails, finally returning the threaded substitution (which is the
unchanged input when the list is empty); exceptions propagate. -/
def threadLoop {α : Type} (f : α → Option Subst → MRes) :
    List α → Option Subst → MRes
  | [], s? => .ok s?
  | x :: xs, s? =>
    match f x s? with
    | .error e => .error e
    | .ok none => .ok none
    | .ok (some s) => threadLoop f xs (some s)

/-- The template loop of `_match_maybe_parameterized_instance`: threads both
the substitution and the (possibly extended) view, aborting with `None` on the
first failing parameter; exceptions propagate. -/
def paramLoop (f : String → Option Subst → View → Except PyErr (Option Subst × View)) :
    List String → Option Subst → View → MRes
  | [], s?, _ => .ok s?
  | x :: xs, s?, view =>
    match f x s? view with
    | .error e => .error e
    | .ok (none, _) => .ok none
    | .ok (some s, view2) => paramLoop f xs (some s) view2

/-- `_match_from_mro`'s walk over one MRO list: unwrap a parameterized base to
its base class; a class base matches if it is (identically) the formal or the
formal's generic base; an ambiguous-or-empty base is deliberately skipped; any
other base raises `AssertionError("Bad base class")`. -/
def match_from_mro_loop (other_type : abstract.AbsVal) :
    List abstract.AbsVal → Except PyErr (Option abstract.AbsVal)
  | [] => .ok none
  | base :: rest =>
    let bc := if abstract.isParameterizedClass base then abstract.base_cls base else base
    if abstract.isClass bc then
      if abstract.pyIs other_type bc ||
         (abstract.isParameterizedClass other_type &&
           abstract.pyIs (abstract.base_cls other_type) bc) then
        .ok (some base)
      else match_from_mro_loop other_type rest
    else if abstract.ambiguousOrEmpty bc then match_from_mro_loop other_type rest
    else .error .assertionError

/-- `AbstractMatcher._match_from_mro`: checks a type's MRO for a match for a
formal type. -/
def match_from_mro (left other_type : abstract.AbsVal) :
    Except PyErr (Option abstract.AbsVal) :=
  match_from_mro_loop other_type (abstract.mroOf left)

/-- The sibling bindings folded into a type-parameter binding: every other
candidate binding of the value's variable whose type key equals the matched
value's (`for other_value in value.variable.bindings: …`). -/
def sibling_bindings (var : abstract.Var) (idx : Nat) (left : abstract.AbsVal) :
    List abstract.AbsVal :=
  (var.bindings.enum.filter
    (fun p => p.1 != idx &&
      abstract.get_type_key p.2 == abstract.get_type_key left)).map Prod.snd

/-- One pending call of the matcher, one constructor per recursive method of
`AbstractMatcher`.  A `Binding` argument is passed as its variable together
with the index of the binding. -/
inductive MCall where
  | varAgainstType (var : abstract.Var) (other_type : abstract.AbsVal)
      (subst : Option Subst) (view : View)
  | valueAgainstType (var : abstract.Var) (idx : Nat) (other_type : abstract.AbsVal)
      (subst : Option Subst) (view : View)
  | typeAgainstType (left other_type : abstract.AbsVal)
      (subst : Option Subst) (view : View)
  | instantiateAndMatch (left other_type : abstract.AbsVal)
      (subst : Option Subst) (view : View)
  | instanceAgainstType (left other_type : abstract.AbsVal)
      (subst : Option Subst) (view : View)
  | matchInstanceCall (left inst other_type : abstract.AbsVal)
      (subst : Option Subst) (view : View)
  | maybeParameterized (left inst other_type : abstract.AbsVal)
      (subst : Option Subst) (view : View)
  | heteroTuple (left inst other_type : abstract.AbsVal)
      (subst : Option Subst) (view : View)
  | classAndInstance (left inst other_type : abstract.AbsVal)
      (subst : Option Subst) (view : View)

/-- The fuel-indexed evaluator of `AbstractMatcher`.  Each constructor's
branch is the body of the corresponding Python method (in source order);
every recursive method call spends one unit of fuel. -/
def run : Nat → MCall → MRes :=
  fun fuel =>
    match fuel with
    | 0 => fun _ => .error .noFuel
    | Nat.succ n => fun c =>
      match c with
      | .varAgainstType var other_type s? view =>
        -- match_var_against_type
        if var.bindings.isEmpty then
          bindEmptyLoop (rightSideOptions other_type) s?
        else
          match viewGet? view var.uid with
          | none => .error .keyError
          | some idx => run n (.valueAgainstType var idx other_type s? view)
      | .valueAgainstType var idx other_type s? view =>
        -- _match_value_against_type
        match var.bindings.get? idx with
        | none => .error .assertionError
        | some left =>
          if abstract.isFormal left then .error .assertionError
          else if abstract.isClass other_type then
            run n (.typeAgainstType left other_type s? view)
          else
            match other_type with
            | .unionVal opts =>
              firstMatch (fun t => run n (.valueAgainstType var idx t s? view)) opts
            | .typeParam nm =>
              (match s? with
               | none => .error .typeError
               | some s =>
                 let base :=
                   match dictGet? s nm with
                   | some v => v.bindings ++ [left]
                   | none => [left]
                 .ok (some (dictSet s nm
                   (.mk 0 (base ++ sibling_bindings var idx left)))))
            | _ =>
              if abstract.isAmbiguous other_type || abstract.isAmbiguous left then
                if abstract.isParameterizedClass other_type then .error .assertionError
                else .ok s?
              else
                match other_type with
                | .nothing => run n (.typeAgainstType left .nothing s? view)
                | _ => .ok none
      | .typeAgainstType left other_type s? view =>
        -- _match_type_against_type
        if abstract.isEmptyVal left && abstract.isNothingVal other_type then .ok s?
        else if abstract.ambiguousOrEmpty left then
          run n (.matchInstanceCall other_type left other_type s? view)
        else if abstract.isClass left then
          (if abstract.full_name other_type == "__builtin__.type" &&
              abstract.isParameterizedClass other_type then
            match dictGet? (abstract.type_parametersOf other_type) "T" with
            | none => .error .keyError
            | some t => run n (.instantiateAndMatch left t s? view)
          else if abstract.full_name other_type == "__builtin__.type" ||
                  abstract.full_name other_type == "__builtin__.object" ||
                  abstract.full_name other_type == "typing.Callable" then
            .ok s?
          else
            match abstract.clsOf left with
            | some _ => run n (.instanceAgainstType left other_type s? view)
            | none => .ok none)
        else
          match left with
          | .moduleVal _ =>
            if abstract.full_name other_type == "__builtin__.module" ||
               abstract.full_name other_type == "__builtin__.object" ||
               abstract.full_name other_type == "types.ModuleType" then .ok s?
            else .ok none
          | .simpleInstance _ _ => run n (.instanceAgainstType left other_type s? view)
          | .tupleInstance _ _ _ => run n (.instanceAgainstType left other_type s? view)
          | .superInstance super_cls super_obj =>
            run n (.classAndInstance super_cls super_obj other_type s? view)
          | .functionVal =>
            if abstract.full_name other_type == "__builtin__.object" ||
               abstract.full_name other_type == "typing.Callable" then .ok s?
            else .ok none
          | .boundFunction =>
            if abstract.full_name other_type == "__builtin__.object" ||
               abstract.full_name other_type == "typing.Callable" then .ok s?
            else .ok none
          | .classMethod =>
            if abstract.full_name other_type == "__builtin__.classmethod" ||
               abstract.full_name other_type == "__builtin__.object" then .ok s?
            else .ok none
          | .staticMethod =>
            if abstract.full_name other_type == "__builtin__.staticmethod" ||
               abstract.full_name other_type == "__builtin__.object" then .ok s?
            else .ok none
          | .nothing =>
            if abstract.isNothingVal other_type then .ok s? else .ok none
          | .unionVal opts =>
            firstMatch (fun o => run n (.typeAgainstType o other_type s? view)) opts
          | _ => .error .notImplementedError
      | .instantiateAndMatch left other_type s? view =>
        -- _instantiate_and_match
        let uid := freshUid view
        let inst := abstract.instantiate uid left
        firstMatch
          (fun i => run n (.varAgainstType inst other_type s? (view ++ [(uid, i)])))
          (List.range inst.bindings.length)
      | .instanceAgainstType left other_type s? view =>
        -- _match_instance_against_type
        match abstract.clsOf left with
        | none => .error .assertionError
        | some v =>
          firstMatch (fun c => run n (.classAndInstance c left other_type s? view))
            v.bindings
      | .matchInstanceCall left inst other_type s? view =>
        -- _match_instance; note that a failed tuple match threads the `None`
        -- substitution into _match_maybe_parameterized_instance unchecked
        if abstract.isTupleClass left || abstract.isTupleInstance inst ||
           abstract.isTupleClass other_type then
          match run n (.heteroTuple left inst other_type s? view) with
          | .error e => .error e
          | .ok s2 => run n (.maybeParameterized left inst other_type s2 view)
        else run n (.maybeParameterized left inst other_type s? view)
      | .maybeParameterized left inst other_type s? view =>
        -- _match_maybe_parameterized_instance
        if abstract.isParameterizedClass other_type then
          match (if abstract.isParameterizedClass left then
                   (if abstract.pyIs (abstract.base_cls left) (abstract.base_cls other_type)
                    then Except.ok left
                    else Except.error PyErr.assertionError)
                 else
                   (if abstract.pyIs left (abstract.base_cls other_type)
                    then Except.ok other_type
                    else Except.error PyErr.assertionError) :
                 Except PyErr abstract.AbsVal) with
          | .error e => .error e
          | .ok left2 =>
            paramLoop
              (fun nm s? view =>
                match dictGet? (abstract.type_parametersOf other_type) nm with
                | none => .error .keyError
                | some class_param =>
                  match dictGet? (abstract.type_parametersOf left2) nm with
                  | none => .error .keyError
                  | some instance_type_param =>
                    let ip0 := abstract.get_type_parameter inst nm
                    let ip1 :=
                      match instance_type_param with
                      | .typeParam n2 =>
                        if ip0.bindings.isEmpty && n2 != nm then
                          abstract.get_type_parameter inst n2
                        else ip0
                      | _ => ip0
                    if !ip1.bindings.isEmpty && (viewGet? view ip1.uid).isNone then
                      match ip1.bindings with
                      | [b] =>
                        if abstract.isUnsolvable b then
                          match run n (.varAgainstType ip1 class_param s?
                                        ((ip1.uid, 0) :: view)) with
                          | .error e => .error e
                          | .ok r => .ok (r, (ip1.uid, 0) :: view)
                        else .error .assertionError
                      | _ => .error .valueError
                    else
                      match run n (.varAgainstType ip1 class_param s? view) with
                      | .error e => .error e
                      | .ok r => .ok (r, view))
              (abstract.templateOf left2) s? view
        else .ok s?
      | .heteroTuple left inst other_type s? view =>
        -- _match_heterogeneous_tuple_instance
        match inst with
        | .tupleInstance _ pyval _ =>
          (match other_type with
           | .tupleClass _ params =>
             if (pyval.length : Int) = (params.length : Int) - 1 then
               threadLoop
                 (fun i s? =>
                   match pyval.get? i with
                   | none => .error .assertionError
                   | some instance_param =>
                     match dictGet? params (toString i) with
                     | none => .error .keyError
                     | some class_param =>
                       run n (.varAgainstType instance_param class_param s? view))
                 (List.range pyval.length) s?
             else .ok none
           | .parameterizedClass _ params =>
             (match dictGet? params "T" with
              | none => .error .keyError
              | some class_param =>
                threadLoop
                  (fun instance_param s? =>
                    run n (.varAgainstType instance_param class_param s? view))
                  pyval s?)
           | _ => .ok s?)
        | _ =>
          if abstract.isTupleClass left then
            run n (.instantiateAndMatch left other_type s? view)
          else if !abstract.isTupleClass other_type then .error .assertionError
          else
            match inst with
            | .simpleInstance _ tps =>
              (match dictGet? tps "T" with
               | none => .error .keyError
               | some instance_param =>
                 threadLoop
                   (fun i s? =>
                     match dictGet? (abstract.type_parametersOf other_type) (toString i) with
                     | none => .error .keyError
                     | some class_param =>
                       run n (.varAgainstType instance_param class_param s? view))
                   (List.range ((abstract.type_parametersOf other_type).length - 1)) s?)
            | _ => .ok s?
      | .classAndInstance left inst other_type s? view =>
        -- _match_class_and_instance_against_type
        if abstract.full_name other_type == "__builtin__.object" then .ok s?
        else if dictGet? compatible_builtins (abstract.full_name left)
                  == some (abstract.full_name other_type) then .ok s?
        else if abstract.isClass other_type then
          match match_from_mro left other_type with
          | .error e => .error e
          | .ok none => .ok none
          | .ok (some base) => run n (.matchInstanceCall base inst other_type s? view)
        else if abstract.isNothingVal other_type then .ok none
        else .error .notImplementedError

/-- `AbstractMatcher.match_var_against_type`. -/
def match_var_against_type (fuel : Nat) (var : abstract.Var)
    (other_type : abstract.AbsVal) (s? : Option Subst) (view : View) : MRes :=
  run fuel (.varAgainstType var other_type s? view)

/-- `AbstractMatcher._match_value_against_type` (the binding is `var`'s
`idx`-th). -/
def match_value_against_type (fuel : Nat) (var : abstract.Var) (idx : Nat)
    (other_type : abstract.AbsVal) (s? : Option Subst) (view : View) : MRes :=
  run fuel (.valueAgainstType var idx other_type s? view)

/-- `AbstractMatcher._match_type_against_type`. -/
def match_type_against_type (fuel : Nat) (left other_type : abstract.AbsVal)
    (s? : Option Subst) (view : View) : MRes :=
  run fuel (.typeAgainstType left other_type s? view)

/-- `AbstractMatcher._instantiate_and_match`. -/
def instantiate_and_match (fuel : Nat) (left other_type : abstract.AbsVal)
    (s? : Option Subst) (view : View) : MRes :=
  run fuel (.instantiateAndMatch left other_type s? view)

/-- `AbstractMatcher._match_instance_against_type`. -/
def match_instance_against_type (fuel : Nat) (left other_type : abstract.AbsVal)
    (s? : Option Subst) (view : View) : MRes :=
  run fuel (.instanceAgainstType left other_type s? view)

/-- `AbstractMatcher._match_instance`. -/
def match_instance (fuel : Nat) (left inst other_type : abstract.AbsVal)
    (s? : Option Subst) (view : View) : MRes :=
  run fuel (.matchInstanceCall left inst other_type s? view)

/-- `AbstractMatcher._match_maybe_parameterized_instance`. -/
def match_maybe_parameterized_instance (fuel : Nat)
    (left inst other_type : abstract.AbsVal) (s? : Option Subst) (view : View) : MRes :=
  run fuel (.maybeParameterized left inst other_type s? view)

/-- `AbstractMatcher._match_heterogeneous_tuple_instance`. -/
def match_heterogeneous_tuple_instance (fuel : Nat)
    (left inst other_type : abstract.AbsVal) (s? : Option Subst) (view : View) : MRes :=
  run fuel (.heteroTuple left inst other_type s? view)

/-- `AbstractMatcher._match_class_and_instance_against_type`. -/
def match_class_and_instance_against_type (fuel : Nat)
    (left inst other_type : abstract.AbsVal) (s? : Option Subst) (view : View) : MRes :=
  run fuel (.classAndInstance left inst other_type s? view)

/-- The finalized `utils.HashableDict` snapshot `compute_subst` returns on
success. -/
structure HashableDict where
  entries : Subst

/-- The fold of `compute_subst` over the formal (name, type) pairs, threading
the accumulated substitution: look the name up in `arg_dict` (an uncaught
`KeyError` if absent), match, abort with the failing name on `None`. -/
def compute_subst_loop (fuel : Nat) :
    List (String × abstract.AbsVal) → Subst →
    List (String × (abstract.Var × Nat)) → View →
    Except PyErr (Option Subst × Option String)
  | [], subst, _, _ => .ok (some subst, none)
  | (name, formal) :: rest, subst, arg_dict, view =>
    match dictGet? arg_dict name with
    | none => .error .keyError
    | some actual =>
      match match_value_against_type fuel actual.1 actual.2 formal (some subst) view with
      | .error e => .error e
      | .ok none => .ok (none, some name)
      | .ok (some s2) => compute_subst_loop fuel rest s2 arg_dict view

/-- `AbstractMatcher.compute_subst`: an empty `arg_dict` succeeds trivially
(asserting the formal list is empty too); otherwise fold over the pairs from
the empty substitution and finalize on success. -/
def compute_subst (fuel : Nat) (formal_args : List (String × abstract.AbsVal))
    (arg_dict : List (String × (abstract.Var × Nat))) (view : View) :
    Except PyErr (Option HashableDict × Option String) :=
  if arg_dict.isEmpty then
    if formal_args.isEmpty then .ok (some ⟨[]⟩, none) else .error .assertionError
  else
    match compute_subst_loop fuel formal_args [] arg_dict view with
    | .error e => .error e
    | .ok (none, nm) => .ok (none, nm)
    | .ok (some s, _) => .ok (some ⟨s⟩, none)

/-- Whether one MRO entry is the match `_match_from_mro` looks for: its
un-parameterized identity is the formal, or the formal's generic base. -/
def mroQualifies (other_type base : abstract.AbsVal) : Bool :=
  let bc := if abstract.isParameterizedClass base then abstract.base_cls base else base
  abstract.isClass bc &&
    (abstract.pyIs other_type bc ||
      (abstract.isParameterizedClass other_type &&
        abstract.pyIs (abstract.base_cls other_type) bc))

/-- The success condition of `compute_subst` as the spec words it: every
(name, formal) pair matches when threaded left-to-right through one
accumulating substitution. -/
def every_pair_matches (fuel : Nat) :
    List (String × abstract.AbsVal) → Subst →
    List (String × (abstract.Var × Nat)) → View →
    Except PyErr (Option Subst)
  | [], subst, _, _ => .ok (some subst)
  | (name, formal) :: rest, subst, arg_dict, view =>
    match dictGet? arg_dict name with
    | none => .error .keyError
    | some actual =>
      match match_value_against_type fuel actual.1 actual.2 formal (some subst) view with
      | .error e => .error e
      | .ok none => .ok none
      | .ok (some s2) => every_pair_matches fuel rest s2 arg_dict view

/-- The slot-by-slot matching of a literal tuple against a fixed-arity tuple
formal, as the spec words it: each positional element is matched against the
slot of the same index, threading one substitution and failing fast. -/
def slots_thread (fuel : Nat) (params : List (String × abstract.AbsVal))
    (view : View) : Nat → List abstract.Var → Option Subst → MRes
  | _, [], s? => .ok s?
  | i, p :: rest, s? =>
    match dictGet? params (toString i) with
    | none => .error .keyError
    | some class_param =>
      match match_var_against_type fuel p class_param s? view with
      | .error e => .error e
      | .ok none => .ok none
      | .ok (some s) => slots_thread fuel params view (i + 1) rest (some s)

end matcher

/-!
Theorems.  General lemmas about the embedded operations come first, then each
claim's theorem, its witness, and (for corrected claims) its counterexample.
-/

theorem pytd.Ty.beq_iff_eq_aux (n : Nat) :
    (∀ (a b : pytd.Ty), sizeOf a ≤ n → (pytd.Ty.beq a b = true ↔ a = b)) ∧
    (∀ (l1 l2 : List pytd.Ty), sizeOf l1 ≤ n →
      (pytd.Ty.beqList l1 l2 = true ↔ l1 = l2)) := by
  induction n with
  | zero =>
    constructor
    · intro a b h
      exfalso
      cases a <;> simp at h
    · intro l1 l2 h
      exfalso
      cases l1 <;> simp at h
  | succ n ih =>
    obtain ⟨ihTy, ihList⟩ := ih
    constructor
    · intro a b h
      cases a <;> cases b <;> try (simp [pytd.Ty.beq]; done)
      case unionType.unionType l1 l2 =>
        have hs : sizeOf l1 ≤ n := by simp at h; omega
        simp [pytd.Ty.beq, ihList _ _ hs]
      case genericType.genericType b1 p1 b2 p2 =>
        have h1 : sizeOf b1 ≤ n := by simp at h; omega
        have h2 : sizeOf p1 ≤ n := by simp at h; omega
        simp [pytd.Ty.beq, ihTy _ _ h1, ihList _ _ h2]
      case homogeneousContainerType.homogeneousContainerType b1 p1 b2 p2 =>
        have h1 : sizeOf b1 ≤ n := by simp at h; omega
        have h2 : sizeOf p1 ≤ n := by simp at h; omega
        simp [pytd.Ty.beq, ihTy _ _ h1, ihList _ _ h2]
      case tupleType.tupleType b1 p1 b2 p2 =>
        have h1 : sizeOf b1 ≤ n := by simp at h; omega
        have h2 : sizeOf p1 ≤ n := by simp at h; omega
        simp [pytd.Ty.beq, ihTy _ _ h1, ihList _ _ h2]
    · intro l1 l2 h
      cases l1 with
      | nil => cases l2 <;> simp [pytd.Ty.beqList]
      | cons a as =>
        cases l2 with
        | nil => simp [pytd.Ty.beqList]
        | cons b bs =>
          have h1 : sizeOf a ≤ n := by simp at h; omega
          have h2 : sizeOf as ≤ n := by simp at h; omega
          simp [pytd.Ty.beqList, ihTy _ _ h1, ihList _ _ h2]

theorem pytd.Ty.beq_iff_eq (a b : pytd.Ty) : pytd.Ty.beq a b = true ↔ a = b :=
  (pytd.Ty.beq_iff_eq_aux (sizeOf a)).1 a b (Nat.le_refl _)

theorem pytd.beqMem_iff (x : pytd.Ty) (l : List pytd.Ty) :
    pytd.beqMem x l = true ↔ x ∈ l := by
  simp [pytd.beqMem, List.any_eq_true, pytd.Ty.beq_iff_eq]

theorem pytd.mem_dedupFirstAux (l : List pytd.Ty) :
    ∀ (seen : List pytd.Ty) (x : pytd.Ty),
      x ∈ pytd.dedupFirstAux seen l ↔ x ∈ l ∧ x ∉ seen := by
  induction l with
  | nil => intro seen x; simp [pytd.dedupFirstAux]
  | cons y ys ih =>
    intro seen x
    by_cases hy : y ∈ seen
    · rw [pytd.dedupFirstAux, if_pos ((pytd.beqMem_iff y seen).2 hy), ih]
      constructor
      · rintro ⟨h1, h2⟩
        exact ⟨List.mem_cons_of_mem _ h1, h2⟩
      · rintro ⟨h1, h2⟩
        rcases List.mem_cons.1 h1 with h1 | h1
        · exact absurd (h1 ▸ hy) h2
        · exact ⟨h1, h2⟩
    · rw [pytd.dedupFirstAux,
        if_neg (fun hc => hy ((pytd.beqMem_iff y seen).1 hc))]
      simp only [List.mem_cons, ih]
      by_cases hxy : x = y
      · subst hxy
        simp [hy]
      · simp [hxy]

theorem pytd.nodup_dedupFirstAux (l : List pytd.Ty) :
    ∀ (seen : List pytd.Ty), (pytd.dedupFirstAux seen l).Nodup := by
  induction l with
  | nil => intro seen; simp [pytd.dedupFirstAux]
  | cons y ys ih =>
    intro seen
    rw [pytd.dedupFirstAux]
    split
    · exact ih seen
    · refine List.Nodup.cons (fun hc => ?_) (ih (y :: seen))
      exact ((pytd.mem_dedupFirstAux ys (y :: seen) y).1 hc).2 (List.mem_cons_self _ _)

theorem pytd.sublist_dedupFirstAux (l : List pytd.Ty) :
    ∀ (seen : List pytd.Ty), (pytd.dedupFirstAux seen l).Sublist l := by
  induction l with
  | nil => intro seen; simp [pytd.dedupFirstAux]
  | cons y ys ih =>
    intro seen
    rw [pytd.dedupFirstAux]
    split
    · exact List.Sublist.cons y (ih seen)
    · exact List.Sublist.cons₂ y (ih (y :: seen))

theorem pytd.frozensetEq_iff (l1 l2 : List pytd.Ty) :
    pytd.frozensetEq l1 l2 = true ↔ (∀ t, t ∈ l1 ↔ t ∈ l2) := by
  simp only [pytd.frozensetEq, Bool.and_eq_true, List.all_eq_true, pytd.beqMem_iff]
  constructor
  · rintro ⟨h1, h2⟩ t
    exact ⟨fun ht => h1 t ht, fun ht => h2 t ht⟩
  · intro h
    exact ⟨fun t ht => (h t).1 ht, fun t ht => (h t).2 ht⟩

theorem pytd.unionHash_eq_of_mem_iff (l1 l2 : List pytd.Ty)
    (h : ∀ t, t ∈ l1 ↔ t ∈ l2) :
    pytd.unionHash (.unionType l1) = pytd.unionHash (.unionType l2) := by
  have hperm : (pytd.dedupFirst l1).Perm (pytd.dedupFirst l2) := by
    rw [pytd.dedupFirst, pytd.dedupFirst,
      List.perm_ext_iff_of_nodup (pytd.nodup_dedupFirstAux l1 [])
        (pytd.nodup_dedupFirstAux l2 [])]
    intro a
    rw [pytd.mem_dedupFirstAux, pytd.mem_dedupFirstAux]
    simp [h a]
  simpa [pytd.unionHash] using ((hperm.map pytd.tyHash).sum_eq)

theorem pytd.mem_flatten_unionMembers (ts : List pytd.Ty) (x : pytd.Ty) :
    x ∈ List.flatten (ts.map pytd.unionMembers) ↔
      ∃ t ∈ ts, x ∈ pytd.unionMembers t := by
  simp [List.mem_flatten]

/-- C8.  `UnionType` construction flattens one level of nested unions, removes
duplicates keeping first occurrences (and their relative order: the member
list is a duplicate-free sublist of the flattened input), yields a non-empty
union when the inputs satisfy the non-empty-union invariant, and two
constructed unions are equal — with equal hashes — exactly when their member
sets are equal; in particular a union built from `[A, UnionType([B, C]), A]`
equals one built from any permutation of `[A, B, C]`. -/
theorem C8_union_construction (ts : List pytd.Ty) (hne : ts ≠ [])
    (hwf : ∀ l, pytd.Ty.unionType l ∈ ts → l ≠ []) :
    ∃ m, pytd.unionTypeNew ts = some (.unionType m) ∧
      m = pytd.dedupFirst (List.flatten (ts.map pytd.unionMembers)) ∧
      (∀ t ∈ ts, ∀ x ∈ pytd.unionMembers t, x ∈ m) ∧
      (∀ x ∈ m, ∃ t ∈ ts, x ∈ pytd.unionMembers t) ∧
      m.Nodup ∧
      m.Sublist (List.flatten (ts.map pytd.unionMembers)) ∧
      m ≠ [] ∧
      (∀ m2, pytd.unionEq (.unionType m) (.unionType m2) = true ↔
        (∀ t, t ∈ m ↔ t ∈ m2)) ∧
      (∀ m2, (∀ t, t ∈ m ↔ t ∈ m2) →
        pytd.unionHash (.unionType m) = pytd.unionHash (.unionType m2)) ∧
      (∀ A B C ub p, pytd.unionTypeNew [B, C] = some ub → p.Perm [A, B, C] →
        ∃ u v, pytd.unionTypeNew [A, ub, A] = some u ∧
          pytd.unionTypeNew p = some v ∧ pytd.unionEq u v = true) := by
  have hflat : ∀ (l : List pytd.Ty), l ≠ [] →
      pytd.unionTypeNew l =
        some (.unionType (pytd.dedupFirst (List.flatten (l.map pytd.unionMembers)))) := by
    intro l hl
    rw [pytd.unionTypeNew, if_neg (by simpa using hl)]
  have hmem : ∀ (l : List pytd.Ty) (x : pytd.Ty),
      x ∈ pytd.dedupFirst (List.flatten (l.map pytd.unionMembers)) ↔
        ∃ t ∈ l, x ∈ pytd.unionMembers t := by
    intro l x
    rw [pytd.dedupFirst, pytd.mem_dedupFirstAux]
    simp [pytd.mem_flatten_unionMembers]
  refine ⟨pytd.dedupFirst (List.flatten (ts.map pytd.unionMembers)),
    hflat ts hne, rfl, ?_, ?_, pytd.nodup_dedupFirstAux _ [],
    pytd.sublist_dedupFirstAux _ [], ?_, ?_, ?_, ?_⟩
  · intro t ht x hx
    exact (hmem ts x).2 ⟨t, ht, hx⟩
  · intro x hx
    exact (hmem ts x).1 hx
  · -- non-emptiness
    obtain ⟨t, rest, rfl⟩ : ∃ t rest, ts = t :: rest := by
      cases ts with
      | nil => exact absurd rfl hne
      | cons t rest => exact ⟨t, rest, rfl⟩
    have hy : ∃ y, y ∈ pytd.unionMembers t := by
      cases t <;> simp only [pytd.unionMembers] <;>
        first
          | exact ⟨_, List.mem_singleton_self _⟩
          | exact List.exists_mem_of_ne_nil _ (hwf _ (List.mem_cons_self _ _))
    obtain ⟨y, hy⟩ := hy
    exact List.ne_nil_of_mem ((hmem _ y).2 ⟨t, List.mem_cons_self _ _, hy⟩)
  · intro m2
    exact pytd.frozensetEq_iff _ m2
  · intro m2 h
    exact pytd.unionHash_eq_of_mem_iff _ m2 h
  · intro A B C ub p hub hp
    have hBC : ub = .unionType
        (pytd.dedupFirst (List.flatten ([B, C].map pytd.unionMembers))) := by
      have h2 := hflat [B, C] (by simp)
      rw [h2] at hub
      exact (Option.some_injective _ hub).symm
    have hpne : p ≠ [] := by
      intro hc
      have h3 := hp.length_eq
      simp [hc] at h3
    refine ⟨_, _, hflat [A, ub, A] (by simp), hflat p hpne, ?_⟩
    rw [pytd.unionEq, pytd.frozensetEq_iff]
    intro x
    rw [hmem, hmem]
    have hxBC : x ∈ pytd.unionMembers ub ↔
        x ∈ pytd.unionMembers B ∨ x ∈ pytd.unionMembers C := by
      rw [hBC]
      simp only [pytd.unionMembers]
      rw [hmem [B, C] x]
      constructor
      · rintro ⟨t2, ht2, hx2⟩
        have h4 : t2 = B ∨ t2 = C := by simpa using ht2
        rcases h4 with h | h
        · exact Or.inl (h ▸ hx2)
        · exact Or.inr (h ▸ hx2)
      · rintro (hx2 | hx2)
        · exact ⟨B, by simp, hx2⟩
        · exact ⟨C, by simp, hx2⟩
    constructor
    · rintro ⟨t, ht, hx⟩
      have ht3 : t = A ∨ t = ub ∨ t = A := by simpa using ht
      rcases ht3 with h | h | h
      · exact ⟨A, hp.mem_iff.2 (by simp), h ▸ hx⟩
      · rcases hxBC.1 (h ▸ hx) with hx2 | hx2
        · exact ⟨B, hp.mem_iff.2 (by simp), hx2⟩
        · exact ⟨C, hp.mem_iff.2 (by simp), hx2⟩
      · exact ⟨A, hp.mem_iff.2 (by simp), h ▸ hx⟩
    · rintro ⟨t, ht, hx⟩
      have ht3 : t = A ∨ t = B ∨ t = C := by simpa using hp.mem_iff.1 ht
      rcases ht3 with h | h | h
      · exact ⟨A, by simp, h ▸ hx⟩
      · exact ⟨ub, by simp, hxBC.2 (Or.inl (h ▸ hx))⟩
      · exact ⟨ub, by simp, hxBC.2 (Or.inr (h ▸ hx))⟩

/-- Witness for C8 at a concrete input: the union built from
`[a, Union([b]), a]` exists, and is set-equal to the one built from
`[b, a]`. -/
theorem C8_union_construction_witness :
    ∃ m, pytd.unionTypeNew
        [pytd.Ty.namedType "a", pytd.Ty.unionType [pytd.Ty.namedType "b"],
         pytd.Ty.namedType "a"] = some (.unionType m) ∧ m.Nodup ∧ m ≠ [] := by
  obtain ⟨m, h1, _, _, _, h5, _, h7, -⟩ :=
    C8_union_construction
      [pytd.Ty.namedType "a", pytd.Ty.unionType [pytd.Ty.namedType "b"],
       pytd.Ty.namedType "a"]
      (by simp)
      (by intro l hl; simp at hl; simp [hl])
  exact ⟨m, h1, h5, h7⟩

theorem dictGet?_dictSet {α : Type} (d : List (String × α)) (k k2 : String) (v : α) :
    dictGet? (dictSet d k v) k2 = if k = k2 then some v else dictGet? d k2 := by
  induction d with
  | nil => simp [dictSet, dictGet?]
  | cons p rest ih =>
    obtain ⟨k3, v3⟩ := p
    rw [dictSet]
    by_cases h3 : k3 = k
    · rw [if_pos h3, dictGet?, dictGet?, h3]
      by_cases h4 : k = k2 <;> simp [h4]
    · rw [if_neg h3, dictGet?, dictGet?, ih]
      by_cases h4 : k3 = k2 <;> by_cases h5 : k = k2 <;> simp [h4, h5]
      exact absurd (h4.trans h5.symm) h3

theorem pytd.lookup_foldl_dictSet (items : List pytd.Item) :
    ∀ (d0 : List (String × pytd.Item)) (nm : String),
      dictGet? (items.foldl (fun d x => dictSet d x.name x) d0) nm =
        (match items.reverse.find? (fun x => x.name == nm) with
         | some x => some x
         | none => dictGet? d0 nm) := by
  induction items with
  | nil => intro d0 nm; simp
  | cons x rest ih =>
    intro d0 nm
    rw [List.foldl_cons, ih, List.reverse_cons, List.find?_append]
    cases hfind : rest.reverse.find? (fun y => y.name == nm) with
    | some y => simp
    | none =>
      rw [Option.none_or]
      by_cases hx : x.name = nm
      · have hbeq : (x.name == nm) = true := beq_iff_eq.2 hx
        simp [List.find?_cons, hbeq, dictGet?_dictSet, hx]
      · have hbeq : (x.name == nm) = false := beq_eq_false_iff_ne.2 hx
        simp [List.find?_cons, hbeq, dictGet?_dictSet, hx]

theorem pytd.buildLoop_append (pre : List pytd.Item) :
    ∀ (rest : List pytd.Item) (d : List (String × pytd.Item)),
      pytd.buildLoop d (pre ++ rest) =
        (match pytd.buildLoop d pre with
         | (d2, none) => pytd.buildLoop d2 rest
         | (d2, some m) => (d2, some m)) := by
  induction pre with
  | nil => intro rest d; simp [pytd.buildLoop]
  | cons x xs ih =>
    intro rest d
    rw [List.cons_append, pytd.buildLoop, pytd.buildLoop]
    by_cases h : dictContains d x.name = true
    · rw [if_pos h, if_pos h]
    · rw [if_neg h, if_neg h]
      exact ih rest (dictSet d x.name x)

/-- C4 counterexample.  A class declaring the constant `x` twice: `Lookup`
silently returns the second declaration instead of failing with a
duplicate-name error. -/
theorem C4_class_lookup_duplicate_counterexample :
    (pytd.Class.Lookup
      ⟨"C", none, [], [],
       [⟨"x", pytd.Ty.anythingType⟩, ⟨"x", pytd.Ty.nothingType⟩], []⟩
      none "x").1 = .found (.constantItem ⟨"x", pytd.Ty.nothingType⟩) ∧
    ∀ msg, (pytd.Class.Lookup
      ⟨"C", none, [], [],
       [⟨"x", pytd.Ty.anythingType⟩, ⟨"x", pytd.Ty.nothingType⟩], []⟩
      none "x").1 ≠ .attributeError msg :=
  ⟨rfl, fun _ h => pytd.LookupResult.noConfusion h⟩

/-- C4 as amended.  `TypeDeclUnit.Lookup` raises the duplicate-name error (on
the cold-cache call) when a constant/function/class/alias collides with an
earlier name, and otherwise consults the built table with idempotent caching;
after such a failure the partially built table stays cached and later lookups
consult it silently.  `Class.Lookup` performs no duplicate detection at all:
it never returns a duplicate-name error and the later of two same-named
declarations (methods before constants) silently wins; its cache is likewise
idempotent. -/
theorem C4_lookup_tables :
    (∀ (c : pytd.Class) (cache : pytd.Cache) (nm : String) (msg : String),
      (pytd.Class.Lookup c cache nm).1 ≠ .attributeError msg) ∧
    (∀ (c : pytd.Class) (nm : String),
      (pytd.Class.Lookup c none nm).1 =
        (match (pytd.classItems c).reverse.find? (fun x => x.name == nm) with
         | some x => .found x
         | none => .keyError nm)) ∧
    (∀ (c : pytd.Class) (nm : String) (r : pytd.LookupResult) (c2 : pytd.Cache),
      pytd.Class.Lookup c none nm = (r, c2) →
      pytd.Class.Lookup c c2 nm = (r, c2)) ∧
    (∀ (u : pytd.TypeDeclUnit) (pre : List pytd.Item) (x : pytd.Item)
        (post : List pytd.Item) (d2 : List (String × pytd.Item)),
      pytd.unitItems u = pre ++ x :: post →
      pytd.buildLoop (pytd.seedTypeParams u) pre = (d2, none) →
      dictContains d2 x.name = true →
      ∀ nm, (pytd.TypeDeclUnit.Lookup u none nm).1 =
        .attributeError ("Duplicate name " ++ x.name)) ∧
    (∀ (u : pytd.TypeDeclUnit) (nm : String),
      (pytd.buildName2Item u).2 = none →
      (pytd.TypeDeclUnit.Lookup u none nm).1 =
        (match dictGet? (pytd.buildName2Item u).1 nm with
         | some i => .found i
         | none => .keyError nm)) ∧
    (∀ (u : pytd.TypeDeclUnit) (nm : String) (r : pytd.LookupResult)
        (c2 : pytd.Cache),
      pytd.TypeDeclUnit.Lookup u none nm = (r, c2) →
      (pytd.buildName2Item u).2 = none →
      pytd.TypeDeclUnit.Lookup u c2 nm = (r, c2)) ∧
    (∀ (u : pytd.TypeDeclUnit) (d : List (String × pytd.Item)) (msg : String),
      pytd.buildName2Item u = (d, some msg) →
      ∀ nm, pytd.TypeDeclUnit.Lookup u none nm = (.attributeError msg, some d) ∧
        (pytd.TypeDeclUnit.Lookup u (some d) nm).1 =
          (match dictGet? d nm with
           | some i => .found i
           | none => .keyError nm)) := by
  refine ⟨?_, ?_, ?_, ?_, ?_, ?_, ?_⟩
  · intro c cache nm msg
    cases cache with
    | none =>
      cases hd : dictGet? (pytd.buildClassName2Item c) nm <;>
        simp [pytd.Class.Lookup, hd]
    | some d =>
      cases hd : dictGet? d nm <;> simp [pytd.Class.Lookup, hd]
  · intro c nm
    simp only [pytd.Class.Lookup, pytd.buildClassName2Item,
      pytd.lookup_foldl_dictSet]
    cases (pytd.classItems c).reverse.find? (fun x => x.name == nm) with
    | some x => rfl
    | none => simp [dictGet?]
  · intro c nm r c2 h
    simp only [pytd.Class.Lookup] at h
    injection h with h1 h2
    subst h1
    subst h2
    simp only [pytd.Class.Lookup]
  · intro u pre x post d2 hsplit hok hdup nm
    have hbuild : pytd.buildName2Item u =
        (d2, some ("Duplicate name " ++ x.name)) := by
      rw [pytd.buildName2Item, hsplit, pytd.buildLoop_append, hok]
      show pytd.buildLoop d2 (x :: post) = _
      rw [pytd.buildLoop, if_pos hdup]
    simp [pytd.TypeDeclUnit.Lookup, hbuild]
  · intro u nm hok
    rcases hb : pytd.buildName2Item u with ⟨d, err⟩
    cases err with
    | some m => rw [hb] at hok; simp at hok
    | none =>
      simp only [pytd.TypeDeclUnit.Lookup, hb]
  · intro u nm r c2 h hok
    rcases hb : pytd.buildName2Item u with ⟨d, err⟩
    cases err with
    | some m => rw [hb] at hok; simp at hok
    | none =>
      simp only [pytd.TypeDeclUnit.Lookup, hb] at h
      injection h with h1 h2
      subst h1
      subst h2
      simp only [pytd.TypeDeclUnit.Lookup]
  · intro u d msg hb nm
    refine ⟨?_, ?_⟩
    · simp [pytd.TypeDeclUnit.Lookup, hb]
    · simp only [pytd.TypeDeclUnit.Lookup]

/-- Witness for C4 at concrete inputs: a unit declaring the constant `x`
twice reports the duplicate on a cold lookup, and a lookup on a
duplicate-free class is cache-idempotent. -/
theorem C4_lookup_tables_witness :
    (pytd.TypeDeclUnit.Lookup
      ⟨none, [⟨"x", pytd.Ty.anythingType⟩, ⟨"x", pytd.Ty.nothingType⟩],
       [], [], [], []⟩ none "x").1 = .attributeError "Duplicate name x" ∧
    pytd.Class.Lookup ⟨"C", none, [], [], [⟨"y", pytd.Ty.anythingType⟩], []⟩
      (pytd.Class.Lookup ⟨"C", none, [], [], [⟨"y", pytd.Ty.anythingType⟩], []⟩
        none "y").2 "y" =
      pytd.Class.Lookup ⟨"C", none, [], [], [⟨"y", pytd.Ty.anythingType⟩], []⟩
        none "y" := by
  constructor
  · exact C4_lookup_tables.2.2.2.1
      ⟨none, [⟨"x", pytd.Ty.anythingType⟩, ⟨"x", pytd.Ty.nothingType⟩],
       [], [], [], []⟩
      [pytd.Item.constantItem ⟨"x", pytd.Ty.anythingType⟩]
      (pytd.Item.constantItem ⟨"x", pytd.Ty.nothingType⟩) []
      [("x", pytd.Item.constantItem ⟨"x", pytd.Ty.anythingType⟩)]
      rfl rfl rfl "x"
  · exact C4_lookup_tables.2.2.1
      ⟨"C", none, [], [], [⟨"y", pytd.Ty.anythingType⟩], []⟩ "y"
      (pytd.Class.Lookup ⟨"C", none, [], [], [⟨"y", pytd.Ty.anythingType⟩], []⟩
        none "y").1
      (pytd.Class.Lookup ⟨"C", none, [], [], [⟨"y", pytd.Ty.anythingType⟩], []⟩
        none "y").2 rfl

theorem matcher.firstMatch_all_none {α : Type} (f : α → matcher.MRes)
    (l : List α) (h : ∀ x ∈ l, f x = .ok none) :
    matcher.firstMatch f l = .ok none := by
  induction l with
  | nil => rfl
  | cons x xs ih =>
    rw [matcher.firstMatch, h x (List.mem_cons_self _ _)]
    exact ih (fun y hy => h y (List.mem_cons_of_mem _ hy))

theorem matcher.firstMatch_eq_of_first {α : Type} (f : α → matcher.MRes)
    (l : List α) :
    ∀ (k : Nat) (t : α) (s' : matcher.Subst), l.get? k = some t →
      (∀ (j : Nat) (tj : α), j < k → l.get? j = some tj → f tj = .ok none) →
      f t = .ok (some s') →
      matcher.firstMatch f l = .ok (some s') := by
  induction l with
  | nil => intro k t s' hk; simp at hk
  | cons x xs ih =>
    intro k t s' hk hbefore ht
    cases k with
    | zero =>
      rw [List.get?_cons_zero] at hk
      obtain rfl : x = t := by injection hk
      rw [matcher.firstMatch, ht]
    | succ k =>
      have hx : f x = .ok none :=
        hbefore 0 x (Nat.succ_pos k) List.get?_cons_zero
      rw [matcher.firstMatch, hx]
      exact ih k t s' (by simpa using hk)
        (fun j tj hj hg => hbefore (j + 1) tj (Nat.succ_lt_succ hj) (by simpa using hg))
        ht

theorem matcher.match_value_union_eq (n : Nat) (var : abstract.Var) (idx : Nat)
    (left : abstract.AbsVal) (opts : List abstract.AbsVal)
    (s? : Option matcher.Subst) (view : matcher.View)
    (h1 : var.bindings.get? idx = some left)
    (h2 : abstract.isFormal left = false) :
    matcher.match_value_against_type (n + 1) var idx (.unionVal opts) s? view =
      matcher.firstMatch
        (fun t => matcher.match_value_against_type n var idx t s? view) opts := by
  simp only [matcher.match_value_against_type, matcher.run, h1, h2,
    abstract.isClass, Bool.false_eq_true, if_false]

/-- C1.  Against a union formal, `_match_value_against_type` tries the
members in declaration order: the whole call equals the first-success fold
over the members; the substitution of the first matching member is returned
(later members, even if they would match, are irrelevant to the result); if
no member matches, the whole match fails with no substitution. -/
theorem C1_union_first_match (n : Nat) (var : abstract.Var) (idx : Nat)
    (left : abstract.AbsVal) (opts : List abstract.AbsVal)
    (s? : Option matcher.Subst) (view : matcher.View)
    (h1 : var.bindings.get? idx = some left)
    (h2 : abstract.isFormal left = false) :
    (matcher.match_value_against_type (n + 1) var idx (.unionVal opts) s? view =
      matcher.firstMatch
        (fun t => matcher.match_value_against_type n var idx t s? view) opts) ∧
    (∀ (k : Nat) (t : abstract.AbsVal) (s' : matcher.Subst),
      opts.get? k = some t →
      (∀ (j : Nat) (tj : abstract.AbsVal), j < k → opts.get? j = some tj →
        matcher.match_value_against_type n var idx tj s? view = .ok none) →
      matcher.match_value_against_type n var idx t s? view = .ok (some s') →
      matcher.match_value_against_type (n + 1) var idx (.unionVal opts) s? view =
        .ok (some s')) ∧
    ((∀ t ∈ opts,
        matcher.match_value_against_type n var idx t s? view = .ok none) →
      matcher.match_value_against_type (n + 1) var idx (.unionVal opts) s? view =
        .ok none) := by
  have heq := matcher.match_value_union_eq n var idx left opts s? view h1 h2
  refine ⟨heq, ?_, ?_⟩
  · intro k t s' hk hbefore ht
    rw [heq]
    exact matcher.firstMatch_eq_of_first _ opts k t s' hk hbefore ht
  · intro hall
    rw [heq]
    exact matcher.firstMatch_all_none _ opts hall

/-- Witness for C1 at a concrete input: a function value against
`Union[T, unknown]` binds `T` via the first member. -/
theorem C1_union_first_match_witness :
    matcher.match_value_against_type 3 (.mk 5 [.functionVal]) 0
      (.unionVal [.typeParam "T", .unknown]) (some []) [] =
      .ok (some [("T", .mk 0 [.functionVal])]) :=
  (C1_union_first_match 2 (.mk 5 [.functionVal]) 0 .functionVal
    [.typeParam "T", .unknown] (some []) [] rfl rfl).2.1 0 (.typeParam "T")
    [("T", .mk 0 [.functionVal])] rfl
    (fun j _ hj _ => absurd hj (Nat.not_lt_zero j)) rfl

/-- C9.  Matching is copy-on-write on the substitution: in the embedding every
update builds a new map, and operationally a failed attempt leaks nothing into
the next one — each union member is tried against the very substitution the
union match was called with, and each class candidate of an instance's class
variable is tried against the very substitution the instance match was called
with (the pre-attempt map, unchanged by the failed branch). -/
theorem C9_substitution_frame (n : Nat) (var : abstract.Var) (idx : Nat)
    (left : abstract.AbsVal) (t : abstract.AbsVal) (ts : List abstract.AbsVal)
    (s? : Option matcher.Subst) (view : matcher.View)
    (h1 : var.bindings.get? idx = some left)
    (h2 : abstract.isFormal left = false) :
    (matcher.match_value_against_type (n + 1) var idx (.unionVal (t :: ts)) s? view =
      (match matcher.match_value_against_type n var idx t s? view with
       | .error e => .error e
       | .ok (some s) => .ok (some s)
       | .ok none =>
         matcher.match_value_against_type (n + 1) var idx (.unionVal ts) s? view)) ∧
    (∀ (left2 other_type : abstract.AbsVal) (v : abstract.Var),
      abstract.clsOf left2 = some v →
      matcher.match_instance_against_type (n + 1) left2 other_type s? view =
        matcher.firstMatch
          (fun c =>
            matcher.match_class_and_instance_against_type n c left2 other_type s? view)
          v.bindings) := by
  constructor
  · rw [matcher.match_value_union_eq n var idx left (t :: ts) s? view h1 h2,
      matcher.match_value_union_eq n var idx left ts s? view h1 h2,
      matcher.firstMatch]
  · intro left2 other_type v hcls
    simp only [matcher.match_instance_against_type,
      matcher.match_class_and_instance_against_type, matcher.run, hcls]

/-- Witness for C9 at a concrete input: after the first union member fails,
the second is tried with the original (empty) substitution. -/
theorem C9_substitution_frame_witness :
    matcher.match_value_against_type 3 (.mk 5 [.functionVal]) 0
      (.unionVal [.nothing, .typeParam "T"]) (some []) [] =
      (match matcher.match_value_against_type 2 (.mk 5 [.functionVal]) 0
          .nothing (some []) [] with
       | .error e => .error e
       | .ok (some s) => .ok (some s)
       | .ok none =>
         matcher.match_value_against_type 3 (.mk 5 [.functionVal]) 0
           (.unionVal [.typeParam "T"]) (some []) []) :=
  (C9_substitution_frame 2 (.mk 5 [.functionVal]) 0 .functionVal .nothing
    [.typeParam "T"] (some []) [] rfl rfl).1

/-- C3.  Binding a formal type parameter: when the name is already bound, the
new binding variable holds the existing value set followed by the new value
(previous values kept, not overwritten); when unbound, a fresh binding holding
the value is created; in both cases every other candidate binding of the
value's variable with the same type key is folded into the same binding, the
rest of the substitution being left untouched. -/
theorem C3_type_parameter_merge (n : Nat) (var : abstract.Var) (idx : Nat)
    (left : abstract.AbsVal) (nm : String) (s : matcher.Subst)
    (view : matcher.View)
    (h1 : var.bindings.get? idx = some left)
    (h2 : abstract.isFormal left = false) :
    (∀ v, dictGet? s nm = some v →
      matcher.match_value_against_type (n + 1) var idx (.typeParam nm) (some s) view =
        .ok (some (dictSet s nm
          (.mk 0 ((v.bindings ++ [left]) ++ matcher.sibling_bindings var idx left))))) ∧
    (dictGet? s nm = none →
      matcher.match_value_against_type (n + 1) var idx (.typeParam nm) (some s) view =
        .ok (some (dictSet s nm
          (.mk 0 ([left] ++ matcher.sibling_bindings var idx left))))) ∧
    (∀ (w : abstract.Var) (k : String), k ≠ nm →
      dictGet? (dictSet s nm w) k = dictGet? s k) ∧
    (∀ d, d ∈ matcher.sibling_bindings var idx left ↔
      ∃ j, j ≠ idx ∧ var.bindings.get? j = some d ∧
        abstract.get_type_key d = abstract.get_type_key left) := by
  refine ⟨?_, ?_, ?_, ?_⟩
  · intro v hv
    simp only [matcher.match_value_against_type, matcher.run, h1, h2,
      abstract.isClass, Bool.false_eq_true, if_false, hv]
  · intro hv
    simp only [matcher.match_value_against_type, matcher.run, h1, h2,
      abstract.isClass, Bool.false_eq_true, if_false, hv]
  · intro w k hk
    rw [dictGet?_dictSet]
    exact if_neg (fun h => hk h.symm)
  · intro d
    simp only [matcher.sibling_bindings, List.mem_map, List.mem_filter]
    constructor
    · rintro ⟨⟨j, d2⟩, ⟨hmem, hpred⟩, rfl⟩
      simp only [Bool.and_eq_true, bne_iff_ne, beq_iff_eq] at hpred
      refine ⟨j, hpred.1, ?_, hpred.2⟩
      rw [List.get?_eq_getElem?]
      exact List.mk_mem_enum_iff_getElem?.1 hmem
    · rintro ⟨j, hj, hg, hk⟩
      refine ⟨(j, d), ⟨?_, ?_⟩, rfl⟩
      · exact List.mk_mem_enum_iff_getElem?.2 (by rw [← List.get?_eq_getElem?]; exact hg)
      · simp [hj, hk]

/-- Witness for C3 at a concrete input: a variable with two bindings of equal
type key, matched against already-bound `T`, accumulates old value, new value
and the type-key sibling. -/
theorem C3_type_parameter_merge_witness :
    matcher.match_value_against_type 1 (.mk 7 [.functionVal, .functionVal]) 0
      (.typeParam "T") (some [("T", .mk 0 [.boundFunction])]) [] =
      .ok (some [("T", .mk 0 [.boundFunction, .functionVal, .functionVal])]) :=
  (C3_type_parameter_merge 0 (.mk 7 [.functionVal, .functionVal]) 0 .functionVal
    "T" [("T", .mk 0 [.boundFunction])] [] rfl rfl).1 (.mk 0 [.boundFunction]) rfl

theorem matcher.bindEmptyLoop_spec (opts : List abstract.AbsVal) :
    ∀ (s : matcher.Subst), ∃ s',
      matcher.bindEmptyLoop opts (some s) = .ok (some s') ∧
      (∀ nm v, dictGet? s nm = some v → dictGet? s' nm = some v) ∧
      (∀ nm, dictGet? s nm = none →
        ((abstract.AbsVal.typeParam nm) ∈ opts → dictGet? s' nm = some (.mk 0 [])) ∧
        ((abstract.AbsVal.typeParam nm) ∉ opts → dictGet? s' nm = none)) := by
  induction opts with
  | nil =>
    intro s
    exact ⟨s, rfl, fun nm v hv => hv,
      fun nm hn => ⟨fun h => absurd h (List.not_mem_nil _), fun _ => hn⟩⟩
  | cons r rest ih =>
    intro s
    cases r
    case typeParam nm0 =>
      by_cases hb : (dictGet? s nm0).isSome = true
      · obtain ⟨s', h1, h2, h3⟩ := ih s
        refine ⟨s', ?_, h2, ?_⟩
        · rw [matcher.bindEmptyLoop, if_pos hb]
          exact h1
        · intro nm hn
          have hne : nm ≠ nm0 := by
            intro h
            rw [h] at hn
            rw [hn] at hb
            simp at hb
          obtain ⟨ha, hb2⟩ := h3 nm hn
          constructor
          · intro hmem
            rcases List.mem_cons.1 hmem with heq | hmem2
            · injection heq with h5
              exact absurd h5 hne
            · exact ha hmem2
          · intro hmem
            exact hb2 (fun hc => hmem (List.mem_cons_of_mem _ hc))
      · obtain ⟨s', h1, h2, h3⟩ := ih (dictSet s nm0 (.mk 0 []))
        refine ⟨s', ?_, ?_, ?_⟩
        · rw [matcher.bindEmptyLoop, if_neg hb]
          exact h1
        · intro nm v hv
          apply h2
          rw [dictGet?_dictSet]
          have hne : ¬nm0 = nm := by
            intro h
            rw [h] at hb
            rw [hv] at hb
            simp at hb
          rw [if_neg hne]
          exact hv
        · intro nm hn
          by_cases he : nm = nm0
          · subst he
            constructor
            · intro _
              apply h2
              rw [dictGet?_dictSet, if_pos rfl]
            · intro hmem
              exact absurd (List.mem_cons_self _ _) hmem
          · have h4 := h3 nm
              (by rw [dictGet?_dictSet, if_neg (fun h => he h.symm)]; exact hn)
            constructor
            · intro hmem
              rcases List.mem_cons.1 hmem with heq | hmem2
              · injection heq with h5
                exact absurd h5 he
              · exact h4.1 hmem2
            · intro hmem
              exact h4.2 (fun hc => hmem (List.mem_cons_of_mem _ hc))
    all_goals {
      obtain ⟨s', h1, h2, h3⟩ := ih s
      refine ⟨s', h1, h2, ?_⟩
      intro nm hn
      obtain ⟨ha, hb2⟩ := h3 nm hn
      refine ⟨fun hmem => ?_,
        fun hmem => hb2 (fun hc => hmem (List.mem_cons_of_mem _ hc))⟩
      rcases List.mem_cons.1 hmem with heq | hmem2
      · exact absurd heq (by simp)
      · exact ha hmem2
    }

theorem matcher.compat_ne_nothing (k : String) :
    ¬dictGet? matcher.compatible_builtins k = some "nothing" := by
  simp only [matcher.compatible_builtins, matcher.compatItems, List.map, dictGet?]
  split_ifs <;> simp

theorem matcher.mCAI_nothing (n : Nat) (c inst : abstract.AbsVal)
    (s? : Option matcher.Subst) (view : matcher.View) :
    matcher.match_class_and_instance_against_type (n + 1) c inst .nothing s? view =
      .ok none := by
  simp only [matcher.match_class_and_instance_against_type, matcher.run,
    abstract.full_name, abstract.isClass, abstract.isNothingVal]
  simp only [Bool.false_eq_true, if_false, beq_iff_eq]
  rw [if_neg (by decide), if_neg (matcher.compat_ne_nothing _), if_pos trivial]

/-- C7.  A variable with no candidate bindings matches every formal type: the
input substitution is returned extended with a fresh empty binding for every
type parameter (the formal itself or a member of a formal union) not already
bound, other entries untouched; conversely a concrete non-empty instance
(plain or tuple) never matches the formal bottom type `Nothing`. -/
theorem C7_empty_matches_nothing_bottom (n : Nat) :
    (∀ (var : abstract.Var) (T : abstract.AbsVal) (s : matcher.Subst)
        (view : matcher.View),
      var.bindings = [] →
      ∃ s', matcher.match_var_against_type (n + 1) var T (some s) view =
          .ok (some s') ∧
        (∀ nm v, dictGet? s nm = some v → dictGet? s' nm = some v) ∧
        (∀ nm, dictGet? s nm = none →
          ((abstract.AbsVal.typeParam nm) ∈ matcher.rightSideOptions T →
            dictGet? s' nm = some (.mk 0 [])) ∧
          ((abstract.AbsVal.typeParam nm) ∉ matcher.rightSideOptions T →
            dictGet? s' nm = none))) ∧
    (∀ (var : abstract.Var) (idx : Nat) (cls : abstract.Var)
        (tps : List (String × abstract.Var)) (s? : Option matcher.Subst)
        (view : matcher.View),
      var.bindings.get? idx = some (.simpleInstance cls tps) →
      matcher.match_value_against_type (n + 4) var idx .nothing s? view = .ok none) ∧
    (∀ (var : abstract.Var) (idx : Nat) (cls : abstract.Var)
        (pyval : List abstract.Var) (tps : List (String × abstract.Var))
        (s? : Option matcher.Subst) (view : matcher.View),
      var.bindings.get? idx = some (.tupleInstance cls pyval tps) →
      matcher.match_value_against_type (n + 4) var idx .nothing s? view = .ok none) := by
  refine ⟨?_, ?_, ?_⟩
  · intro var T s view hvar
    have : matcher.match_var_against_type (n + 1) var T (some s) view =
        matcher.bindEmptyLoop (matcher.rightSideOptions T) (some s) := by
      simp only [matcher.match_var_against_type, matcher.run, hvar,
        List.isEmpty_nil, if_true]
    rw [this]
    exact matcher.bindEmptyLoop_spec (matcher.rightSideOptions T) s
  · intro var idx cls tps s? view h1
    have hstep : matcher.match_instance_against_type (n + 2)
        (.simpleInstance cls tps) .nothing s? view = .ok none := by
      simp only [matcher.match_instance_against_type, matcher.run, abstract.clsOf]
      exact matcher.firstMatch_all_none _ _
        (fun c _ => matcher.mCAI_nothing n c _ s? view)
    simp only [matcher.match_value_against_type, matcher.run, h1,
      abstract.isFormal, abstract.isClass, abstract.isAmbiguous,
      abstract.isEmptyVal, abstract.ambiguousOrEmpty, Bool.false_eq_true,
      if_false, Bool.or_self]
    exact hstep
  · intro var idx cls pyval tps s? view h1
    have hstep : matcher.match_instance_against_type (n + 2)
        (.tupleInstance cls pyval tps) .nothing s? view = .ok none := by
      simp only [matcher.match_instance_against_type, matcher.run, abstract.clsOf]
      exact matcher.firstMatch_all_none _ _
        (fun c _ => matcher.mCAI_nothing n c _ s? view)
    simp only [matcher.match_value_against_type, matcher.run, h1,
      abstract.isFormal, abstract.isClass, abstract.isAmbiguous,
      abstract.isEmptyVal, abstract.ambiguousOrEmpty, Bool.false_eq_true,
      if_false, Bool.or_self]
    exact hstep

/-- Witness for C7 at a concrete input: an empty variable matches the formal
type parameter `K`, binding it to a fresh empty variable. -/
theorem C7_empty_matches_nothing_bottom_witness :
    ∃ s', matcher.match_var_against_type 1 (.mk 3 []) (.typeParam "K")
        (some []) [] = .ok (some s') ∧ dictGet? s' "K" = some (.mk 0 []) := by
  obtain ⟨s', h1, _, h3⟩ :=
    (C7_empty_matches_nothing_bottom 0).1 (.mk 3 []) (.typeParam "K") [] [] rfl
  exact ⟨s', h1, (h3 "K" rfl).1 (by simp [matcher.rightSideOptions])⟩

theorem matcher.match_from_mro_loop_find (other_type : abstract.AbsVal) :
    ∀ (l : List abstract.AbsVal),
      (∀ base ∈ l,
        abstract.isClass
            (if abstract.isParameterizedClass base then abstract.base_cls base
             else base) = true ∨
          abstract.ambiguousOrEmpty
            (if abstract.isParameterizedClass base then abstract.base_cls base
             else base) = true) →
      matcher.match_from_mro_loop other_type l =
        .ok (l.find? (matcher.mroQualifies other_type)) := by
  intro l
  induction l with
  | nil => intro _; rfl
  | cons b rest ih =>
    intro h
    have hrest := ih (fun base hb => h base (List.mem_cons_of_mem _ hb))
    have hb := h b (List.mem_cons_self _ _)
    cases hc : abstract.isClass
        (if abstract.isParameterizedClass b then abstract.base_cls b else b) with
    | true =>
      cases hq : (abstract.pyIs other_type
            (if abstract.isParameterizedClass b then abstract.base_cls b else b) ||
          (abstract.isParameterizedClass other_type &&
            abstract.pyIs (abstract.base_cls other_type)
              (if abstract.isParameterizedClass b then abstract.base_cls b
               else b))) with
      | true =>
        simp only [matcher.match_from_mro_loop, List.find?_cons,
          matcher.mroQualifies, hc, hq, if_true, Bool.true_and]
      | false =>
        simp only [matcher.match_from_mro_loop, List.find?_cons,
          matcher.mroQualifies, hc, hq, if_true, Bool.true_and,
          Bool.false_eq_true, if_false]
        exact hrest
    | false =>
      have hae : abstract.ambiguousOrEmpty
          (if abstract.isParameterizedClass b then abstract.base_cls b else b) =
          true := by
        rcases hb with h1 | h1
        · rw [hc] at h1
          exact absurd h1 (by simp)
        · exact h1
      simp only [matcher.match_from_mro_loop, List.find?_cons,
        matcher.mroQualifies, hc, hae, Bool.false_and, Bool.false_eq_true,
        if_false, if_true]
      exact hrest

/-- C5.  The MRO walk returns the first base whose un-parameterized identity
is the formal (or the formal's generic base), skipping past ambiguous or
empty bases, and reports no match when no base qualifies: on an MRO whose
entries are all class-like or ambiguous, `_match_from_mro` computes exactly
the first qualifying entry, and an ambiguous base never qualifies — so an
ambiguous base ahead of the real matching ancestor does not stop (or match)
the search. -/
theorem C5_mro_walk_skips_ambiguous (left other_type : abstract.AbsVal)
    (hgood : ∀ base ∈ abstract.mroOf left,
      abstract.isClass
          (if abstract.isParameterizedClass base then abstract.base_cls base
           else base) = true ∨
        abstract.ambiguousOrEmpty
          (if abstract.isParameterizedClass base then abstract.base_cls base
           else base) = true) :
    matcher.match_from_mro left other_type =
      .ok ((abstract.mroOf left).find? (matcher.mroQualifies other_type)) ∧
    (∀ base, abstract.ambiguousOrEmpty base = true →
      matcher.mroQualifies other_type base = false) := by
  constructor
  · exact matcher.match_from_mro_loop_find other_type (abstract.mroOf left) hgood
  · intro base hb
    have hnp : abstract.isParameterizedClass base = false := by
      cases base <;> first
        | rfl
        | (exfalso; simp [abstract.ambiguousOrEmpty] at hb)
    have hnc : abstract.isClass base = false := by
      cases base <;> first
        | rfl
        | (exfalso; simp [abstract.ambiguousOrEmpty] at hb)
    simp only [matcher.mroQualifies, hnp, Bool.false_eq_true, if_false, hnc,
      Bool.false_and]

/-- Witness for C5 at a concrete input: class `C` whose MRO holds an unknown
base ahead of the ancestor `B` still matches the formal `B`. -/
theorem C5_mro_walk_skips_ambiguous_witness :
    matcher.match_from_mro
      (.plainClass 1 "C"
        [.plainClass 1 "C" [] none [], .unknown, .plainClass 2 "B" [] none []]
        none [])
      (.plainClass 2 "B" [] none []) =
      .ok (some (.plainClass 2 "B" [] none [])) := by
  have h := (C5_mro_walk_skips_ambiguous
    (.plainClass 1 "C"
      [.plainClass 1 "C" [] none [], .unknown, .plainClass 2 "B" [] none []]
      none [])
    (.plainClass 2 "B" [] none [])
    (by
      intro base hb
      simp only [abstract.mroOf, List.mem_cons, List.not_mem_nil, or_false] at hb
      rcases hb with rfl | rfl | rfl <;>
        simp [abstract.isClass, abstract.ambiguousOrEmpty,
          abstract.isParameterizedClass])).1
  rw [h]
  rfl

theorem matcher.threadLoop_range_slots (n : Nat)
    (params : List (String × abstract.AbsVal)) (view : matcher.View)
    (pyval : List abstract.Var) :
    ∀ (suffix : List abstract.Var) (k : Nat) (s? : Option matcher.Subst),
      pyval.drop k = suffix →
      matcher.threadLoop
        (fun i s? =>
          match pyval.get? i with
          | none => .error .assertionError
          | some instance_param =>
            match dictGet? params (toString i) with
            | none => .error .keyError
            | some class_param =>
              matcher.run n (.varAgainstType instance_param class_param s? view))
        (List.range' k suffix.length) s? =
        matcher.slots_thread n params view k suffix s? := by
  intro suffix
  induction suffix with
  | nil => intro k s? _; rfl
  | cons p rest ih =>
    intro k s? hdrop
    have hget : pyval.get? k = some p := by
      have h0 : (pyval.drop k).get? 0 = some p := by rw [hdrop]; rfl
      rw [List.get?_eq_getElem?, List.getElem?_drop] at h0
      rw [List.get?_eq_getElem?]
      simpa using h0
    have hdrop2 : pyval.drop (k + 1) = rest := by
      have : pyval.drop (k + 1) = (pyval.drop k).drop 1 := by
        rw [List.drop_drop, Nat.add_comm]
      rw [this, hdrop]
      rfl
    rw [List.length_cons, List.range'_succ, matcher.threadLoop, hget]
    rw [matcher.slots_thread]
    cases dictGet? params (toString k) with
    | none => rfl
    | some class_param =>
      simp only [matcher.match_var_against_type]
      cases matcher.run n (.varAgainstType p class_param s? view) with
      | error e => rfl
      | ok r =>
        cases r with
        | none => rfl
        | some s => exact ih (k + 1) (some s) hdrop2

/-- C6.  Matching a literal tuple value against a fixed-arity tuple formal:
when the element count differs from the slot count the match fails
immediately with no substitution; when they agree, the call equals the
slot-by-slot threading of the elements through their positional slots (one
substitution threaded left-to-right, failing fast on the first failing
slot). -/
theorem C6_tuple_arity (n : Nat) (left : abstract.AbsVal) (cv : abstract.Var)
    (pyval : List abstract.Var) (tps : List (String × abstract.Var))
    (base : abstract.AbsVal) (params : List (String × abstract.AbsVal))
    (s? : Option matcher.Subst) (view : matcher.View) :
    ((pyval.length : Int) ≠ (params.length : Int) - 1 →
      matcher.match_heterogeneous_tuple_instance (n + 1) left
        (.tupleInstance cv pyval tps) (.tupleClass base params) s? view =
        .ok none) ∧
    ((pyval.length : Int) = (params.length : Int) - 1 →
      matcher.match_heterogeneous_tuple_instance (n + 1) left
        (.tupleInstance cv pyval tps) (.tupleClass base params) s? view =
        matcher.slots_thread n params view 0 pyval s?) := by
  constructor
  · intro hne
    simp only [matcher.match_heterogeneous_tuple_instance, matcher.run]
    rw [if_neg hne]
  · intro heq
    simp only [matcher.match_heterogeneous_tuple_instance, matcher.run]
    rw [if_pos heq, List.range_eq_range']
    exact matcher.threadLoop_range_slots n params view pyval pyval 0 s? rfl

/-- Witness for C6 at concrete inputs: a 3-element literal tuple against a
2-slot tuple formal fails with no substitution; a 1-element tuple against a
1-slot formal reduces to matching the single slot. -/
theorem C6_tuple_arity_witness :
    matcher.match_heterogeneous_tuple_instance 5
      (.tupleClass (.plainClass 1 "__builtin__.tuple" [] none [])
        [("0", .unknown), ("1", .unknown), ("T", .unknown)])
      (.tupleInstance (.mk 0 [])
        [.mk 1 [.functionVal], .mk 2 [.functionVal], .mk 3 [.functionVal]] [])
      (.tupleClass (.plainClass 1 "__builtin__.tuple" [] none [])
        [("0", .unknown), ("1", .unknown), ("T", .unknown)])
      (some []) [] = .ok none ∧
    matcher.match_heterogeneous_tuple_instance 5
      (.tupleClass (.plainClass 1 "__builtin__.tuple" [] none [])
        [("0", .unknown), ("T", .unknown)])
      (.tupleInstance (.mk 0 []) [.mk 1 [.functionVal]] [])
      (.tupleClass (.plainClass 1 "__builtin__.tuple" [] none [])
        [("0", .unknown), ("T", .unknown)])
      (some []) [] =
      matcher.slots_thread 4
        [("0", .unknown), ("T", .unknown)] [] 0 [.mk 1 [.functionVal]]
        (some []) :=
  ⟨(C6_tuple_arity 4
      (.tupleClass (.plainClass 1 "__builtin__.tuple" [] none [])
        [("0", .unknown), ("1", .unknown), ("T", .unknown)])
      (.mk 0 [])
      [.mk 1 [.functionVal], .mk 2 [.functionVal], .mk 3 [.functionVal]] []
      (.plainClass 1 "__builtin__.tuple" [] none [])
      [("0", .unknown), ("1", .unknown), ("T", .unknown)]
      (some []) []).1 (by decide),
   (C6_tuple_arity 4
      (.tupleClass (.plainClass 1 "__builtin__.tuple" [] none [])
        [("0", .unknown), ("T", .unknown)])
      (.mk 0 []) [.mk 1 [.functionVal]] []
      (.plainClass 1 "__builtin__.tuple" [] none [])
      [("0", .unknown), ("T", .unknown)]
      (some []) []).2 (by decide)⟩

theorem matcher.epm_loop_append (fuel : Nat)
    (arg : List (String × (abstract.Var × Nat))) (view : matcher.View) :
    ∀ (pre rest : List (String × abstract.AbsVal)) (s0 s : matcher.Subst),
      matcher.every_pair_matches fuel pre s0 arg view = .ok (some s) →
      matcher.compute_subst_loop fuel (pre ++ rest) s0 arg view =
        matcher.compute_subst_loop fuel rest s arg view := by
  intro pre
  induction pre with
  | nil =>
    intro rest s0 s h
    rw [matcher.every_pair_matches] at h
    obtain rfl : s0 = s := by
      injection h with h2
      injection h2
    rfl
  | cons p pres ih =>
    intro rest s0 s h
    obtain ⟨nm, f⟩ := p
    rw [matcher.every_pair_matches] at h
    rw [List.cons_append, matcher.compute_subst_loop]
    cases harg : dictGet? arg nm with
    | none =>
      simp only [harg] at h
      exact absurd h (by simp)
    | some actual =>
      simp only [harg] at h ⊢
      cases hm : matcher.match_value_against_type fuel actual.1 actual.2 f
          (some s0) view with
      | error e =>
        simp only [hm] at h
        exact absurd h (by simp)
      | ok r =>
        simp only [hm] at h ⊢
        cases r with
        | none => simp at h
        | some s2 => exact ih rest s2 s h

theorem matcher.loop_of_epm (fuel : Nat)
    (arg : List (String × (abstract.Var × Nat))) (view : matcher.View) :
    ∀ (pairs : List (String × abstract.AbsVal)) (s0 s : matcher.Subst),
      matcher.every_pair_matches fuel pairs s0 arg view = .ok (some s) →
      matcher.compute_subst_loop fuel pairs s0 arg view = .ok (some s, none) := by
  intro pairs s0 s h
  have h2 := matcher.epm_loop_append fuel arg view pairs [] s0 s h
  rw [List.append_nil] at h2
  rw [h2]
  rfl

theorem matcher.epm_of_loop (fuel : Nat)
    (arg : List (String × (abstract.Var × Nat))) (view : matcher.View) :
    ∀ (pairs : List (String × abstract.AbsVal)) (s0 s : matcher.Subst)
      (x : Option String),
      matcher.compute_subst_loop fuel pairs s0 arg view = .ok (some s, x) →
      x = none ∧
        matcher.every_pair_matches fuel pairs s0 arg view = .ok (some s) := by
  intro pairs
  induction pairs with
  | nil =>
    intro s0 s x h
    rw [matcher.compute_subst_loop] at h
    injection h with h2
    obtain ⟨h3, h4⟩ := Prod.mk.injEq .. ▸ h2
    refine ⟨h4.symm ▸ rfl, ?_⟩
    rw [matcher.every_pair_matches]
    injection h3 with h5
    rw [h5]
  | cons p pres ih =>
    intro s0 s x h
    obtain ⟨nm, f⟩ := p
    rw [matcher.compute_subst_loop] at h
    rw [matcher.every_pair_matches]
    cases harg : dictGet? arg nm with
    | none =>
      simp only [harg] at h
      exact absurd h (by simp)
    | some actual =>
      simp only [harg] at h ⊢
      cases hm : matcher.match_value_against_type fuel actual.1 actual.2 f
          (some s0) view with
      | error e =>
        simp only [hm] at h
        exact absurd h (by simp)
      | ok r =>
        simp only [hm] at h ⊢
        cases r with
        | none =>
          exfalso
          injection h with h2
          obtain ⟨h3, _⟩ := Prod.mk.injEq .. ▸ h2
          exact Option.noConfusion h3
        | some s2 => exact ih s2 s x h

/-- C2.  With a non-empty argument map, `compute_subst` folds left-to-right
over the formal pairs threading one substitution: on the first failing pair
it returns `(None, that pair's name)` whatever pairs follow (they are never
evaluated), and it returns a finalized substitution with no failing name
exactly when every pair matches in the threaded order. -/
theorem C2_compute_subst_fold (fuel : Nat)
    (arg : List (String × (abstract.Var × Nat))) (view : matcher.View)
    (hne : arg ≠ []) :
    (∀ (pre : List (String × abstract.AbsVal)) (nm : String)
        (f : abstract.AbsVal) (rest : List (String × abstract.AbsVal))
        (s : matcher.Subst) (actual : abstract.Var × Nat),
      matcher.every_pair_matches fuel pre [] arg view = .ok (some s) →
      dictGet? arg nm = some actual →
      matcher.match_value_against_type fuel actual.1 actual.2 f (some s) view =
        .ok none →
      matcher.compute_subst fuel (pre ++ (nm, f) :: rest) arg view =
        .ok (none, some nm)) ∧
    (∀ (pairs : List (String × abstract.AbsVal)) (s : matcher.Subst),
      matcher.compute_subst fuel pairs arg view = .ok (some ⟨s⟩, none) ↔
        matcher.every_pair_matches fuel pairs [] arg view = .ok (some s)) := by
  have hemp : arg.isEmpty = false := by
    cases arg with
    | nil => exact absurd rfl hne
    | cons a l => rfl
  constructor
  · intro pre nm f rest s actual hs harg hfail
    rw [matcher.compute_subst, hemp]
    simp only [Bool.false_eq_true, if_false]
    rw [matcher.epm_loop_append fuel arg view pre ((nm, f) :: rest) [] s hs,
      matcher.compute_subst_loop]
    simp only [harg, hfail]
  · intro pairs s
    constructor
    · intro h
      rw [matcher.compute_subst, hemp] at h
      simp only [Bool.false_eq_true, if_false] at h
      cases hl : matcher.compute_subst_loop fuel pairs [] arg view with
      | error e => rw [hl] at h; exact absurd h (by simp)
      | ok r =>
        obtain ⟨r1, r2⟩ := r
        rw [hl] at h
        cases r1 with
        | none => exact absurd h (by simp)
        | some s2 =>
          obtain ⟨hx, hepm⟩ := matcher.epm_of_loop fuel arg view pairs [] s2 r2 hl
          have hs2 : s2 = s := by
            simp only at h
            injection h with h2
            obtain ⟨h3, _⟩ := Prod.mk.injEq .. ▸ h2
            injection h3 with h4
            injection h4
          rw [← hs2]
          exact hepm
    · intro h
      rw [matcher.compute_subst, hemp]
      simp only [Bool.false_eq_true, if_false]
      rw [matcher.loop_of_epm fuel arg view pairs [] s h]

/-- Witness for C2 at a concrete input: with `a` matching and `b` failing,
the fold stops at `b` whatever follows, and the all-match case round-trips
through `every_pair_matches`. -/
theorem C2_compute_subst_fold_witness :
    matcher.compute_subst 5
      [("a", .unknown), ("b", .plainClass 1 "C" [] none []),
       ("c", .unknown)]
      [("a", (.mk 0 [.functionVal], 0)), ("b", (.mk 1 [.functionVal], 0)),
       ("c", (.mk 2 [.functionVal], 0))] [] = .ok (none, some "b") := by
  have h := (C2_compute_subst_fold 5
    [("a", (.mk 0 [.functionVal], 0)), ("b", (.mk 1 [.functionVal], 0)),
     ("c", (.mk 2 [.functionVal], 0))] [] (by simp)).1
    [("a", .unknown)] "b" (.plainClass 1 "C" [] none []) [("c", .unknown)]
    [] (.mk 1 [.functionVal], 0) rfl rfl rfl
  exact h

/-- C10 counterexample.  `formal_args` holds the pair `("b", unknown)` whose
name is absent from the (non-empty) argument map, yet the call does not raise
`KeyError`: the earlier pair `a` fails to match first and the normal failure
result `(None, "a")` is returned. -/
theorem C10_absent_name_counterexample :
    matcher.compute_subst 5
      [("a", .plainClass 1 "C" [] none []), ("b", .unknown)]
      [("a", (.mk 0 [.functionVal], 0))] [] = .ok (none, some "a") ∧
    matcher.compute_subst 5
      [("a", .plainClass 1 "C" [] none []), ("b", .unknown)]
      [("a", (.mk 0 [.functionVal], 0))] [] ≠ .error .keyError :=
  ⟨rfl, fun h => Except.noConfusion h⟩

/-- C10 as amended.  With a non-empty argument map, `compute_subst` raises an
uncaught `KeyError` at the first formal pair whose name is absent from the
map and that the left-to-right fold actually reaches — i.e. whenever every
earlier pair is present and matches; if an earlier pair fails to match first,
the normal `(None, name)` failure result is returned instead and the absent
name is never looked up. -/
theorem C10_absent_name_keyerror (fuel : Nat)
    (pre : List (String × abstract.AbsVal)) (nm : String) (f : abstract.AbsVal)
    (rest : List (String × abstract.AbsVal))
    (arg : List (String × (abstract.Var × Nat))) (view : matcher.View)
    (s : matcher.Subst) (hne : arg ≠ [])
    (hs : matcher.every_pair_matches fuel pre [] arg view = .ok (some s))
    (habs : dictGet? arg nm = none) :
    matcher.compute_subst fuel (pre ++ (nm, f) :: rest) arg view =
      .error .keyError := by
  have hemp : arg.isEmpty = false := by
    cases arg with
    | nil => exact absurd rfl hne
    | cons a l => rfl
  rw [matcher.compute_subst, hemp]
  simp only [Bool.false_eq_true, if_false]
  rw [matcher.epm_loop_append fuel arg view pre ((nm, f) :: rest) [] s hs,
    matcher.compute_subst_loop]
  simp only [habs]

/-- Witness for C10 at a concrete input: pair `a` present and matching, pair
`b` absent, so the call raises `KeyError`. -/
theorem C10_absent_name_keyerror_witness :
    matcher.compute_subst 5 [("a", .unknown), ("b", .unknown)]
      [("a", (.mk 0 [.functionVal], 0))] [] = .error .keyError :=
  C10_absent_name_keyerror 5 [("a", .unknown)] "b" .unknown []
    [("a", (.mk 0 [.functionVal], 0))] [] [] (by simp) rfl rfl
